import Mathlib

/-!
Verification of the mcp-use widget registration engine
(`src/server/widgets/protocol-helpers.ts` together with the
`uiResourceRegistration` module concatenated to it).

The TypeScript code is shallowly embedded: JS `Map`s become association
lists, `undefined`-able values become `Option`, the `Math.random` draw of
`generateUniqueWidgetUri` / `generateWidgetUri` becomes an explicit
argument, and the stateful registrar becomes a step function on an
explicit `ServerState`.  Functions of the repository that are not part of
the sources under verification (the widget-helpers module, the protocol
adapter classes and the hosting server's registration tables) are
modelled from the specification and marked `Modelled from the spec:` in
their doc comments.
-/

namespace McpUse

/-! ## Association-list maps

Mirror the JS `Map` objects used by the server: string keys, insertion
order preserved, `set` replaces an existing binding in place. -/

def mapGet {α : Type} (k : String) : List (String × α) → Option α
  | [] => none
  | (a, b) :: t => if k = a then some b else mapGet k t

def mapSet {α : Type} (k : String) (v : α) : List (String × α) → List (String × α)
  | [] => [(k, v)]
  | (a, b) :: t => if k = a then (k, v) :: t else (a, b) :: mapSet k v t

/-- In-place update of the value stored under `k` (no-op when the key is
absent), mirroring `existing.config = ...; existing.handler = ...` on a
record obtained from a registrations map. -/
def mapUpdate {α : Type} (k : String) (f : α → α) (m : List (String × α)) : List (String × α) :=
  m.map (fun kv => if kv.1 = k then (kv.1, f kv.2) else kv)

/-! ## Data model -/

/-- The `type` tag of a UI resource definition.  The TS value is an
arbitrary runtime string, so unrecognized tags are represented
explicitly. -/
inductive WidgetType where
  | externalUrl
  | rawHtml
  | remoteDom
  | appsSdk
  | mcpApps
  | unknownTag (tag : String)
deriving DecidableEq, Repr

/-- A value sitting in one of the snake_case CSP fields of an
`openai/widgetCSP` object: either an array (of domain / directive
strings) or some non-array value. -/
inductive CspField where
  | arr (xs : List String)
  | nonArray
deriving DecidableEq, Repr

/-- The snake_case CSP object of the Apps SDK convention
(`openai/widgetCSP`).  A field that is absent is `none`. -/
structure SnakeCsp where
  connect_domains : Option CspField := none
  resource_domains : Option CspField := none
  frame_domains : Option CspField := none
  base_uri_domains : Option CspField := none
  script_directives : Option CspField := none
  style_directives : Option CspField := none
deriving DecidableEq, Repr

/-- The camelCase CSP configuration of the MCP Apps convention
(`ui.csp` and the `csp` block of an mcpApps definition's metadata). -/
structure CspConfig where
  connectDomains : Option (List String) := none
  resourceDomains : Option (List String) := none
  frameDomains : Option (List String) := none
  baseUriDomains : Option (List String) := none
  scriptDirectives : Option (List String) := none
  styleDirectives : Option (List String) := none
deriving DecidableEq, Repr

/-- The CSP-bearing `metadata` block of an mcpApps definition, which is
also the shape of the resource-level `_meta.ui` object. -/
structure WidgetMetadata where
  csp : Option CspConfig := none
  prefersBorder : Option Bool := none
  domain : Option String := none
  permissions : Option (List String) := none
deriving DecidableEq, Repr

/-- The Apps-SDK-specific metadata block (`appsSdkMetadata`). -/
structure AppsSdkMeta where
  invoking : Option String := none
  invoked : Option String := none
  widgetAccessible : Option Bool := none
  resultCanProduceWidget : Option Bool := none
  widgetCSP : Option SnakeCsp := none
  sdkDescription : Option String := none
deriving DecidableEq, Repr

/-- The polymorphic props / schema source of a definition: a Zod schema
object (has `_def`, `instanceof z.ZodObject`), a JSON-schema-shaped
object, or a legacy untyped `WidgetProps` map. -/
inductive PropsVal where
  | zod (tag : String)
  | jsonSchema (hasSchemaKey : Bool) (typeIsObject : Bool)
      (properties : Option (List String)) (required : List String)
  | widgetProps (fields : List String)
deriving DecidableEq, Repr

/-- The `_meta["mcp-use/widget"]` bookkeeping entry carried by
file-based widgets. -/
structure McpUseWidgetMeta where
  exposeAsTool : Option Bool := none
  props : Option PropsVal := none
  inputs : Option PropsVal := none
  schema : Option PropsVal := none
deriving DecidableEq, Repr

/-- A definition's `_meta` object: the private `mcp-use/widget` entry, a
possible stray `ui` entry (both filtered out of the public listing
metadata), and the remaining public keys. -/
structure DefMeta where
  widget : Option McpUseWidgetMeta := none
  uiEntry : Option String := none
  extras : List (String × String) := []
deriving DecidableEq, Repr

/-- A structured-content value returned from a tool call: either the
call parameters themselves or some author-supplied value. -/
inductive StructuredVal where
  | params (p : List (String × String))
  | value (s : String)
deriving DecidableEq, Repr

/-- A plain content item of a tool output (authors can only supply text
or static embedded-resource items here). -/
inductive ContentItem where
  | text (t : String)
  | embedded (uri : String) (mimeType : String) (body : String)
deriving DecidableEq, Repr

/-- The value shape produced by an author's `toolOutput` or by
`generateToolOutput`. -/
structure ToolOutputResult where
  content : Option (List ContentItem) := none
  structuredContent : Option StructuredVal := none
deriving DecidableEq, Repr

/-- An author-supplied `toolOutput`: a static value or a function of the
call parameters. -/
inductive ToolOutputSpec where
  | static (r : ToolOutputResult)
  | func (f : List (String × String) → ToolOutputResult)

/-- An author-supplied `structuredContent`: a static value or a function
of the call parameters. -/
inductive StructuredSpec where
  | static (v : StructuredVal)
  | func (f : List (String × String) → StructuredVal)

/-- A widget (UI resource) definition. -/
@[ext] structure UIResourceDefinition where
  name : String
  type : WidgetType
  title : Option String := none
  description : Option String := none
  widget : Option String := none
  href : Option String := none
  url : Option String := none
  props : Option PropsVal := none
  annotations : Option String := none
  toolAnnotations : Option String := none
  exposeAsTool : Option Bool := none
  metadata : Option WidgetMetadata := none
  appsSdkMetadata : Option AppsSdkMeta := none
  toolOutput : Option ToolOutputSpec := none
  structuredContent : Option StructuredSpec := none
  htmlTemplate : Option String := none
  meta : Option DefMeta := none

/-! ## Pure helpers from protocol-helpers.ts -/

/-- The function getBuildIdPart from protocol-helpers.ts. -/
def getBuildIdPart : Option String → String
  | some b => "-" ++ b
  | none => ""

/-- The function generateUniqueWidgetUri from protocol-helpers.ts.  The
`Math.random().toString(36).substring(2, 15)` draw is an explicit
`randomId` argument of the embedding. -/
def generateUniqueWidgetUri (name : String) (buildId : Option String)
    (extension : String) (randomId : String) : String :=
  let buildIdPart := getBuildIdPart buildId
  "ui://widget/" ++ name ++ buildIdPart ++ "-" ++ randomId ++ extension

/-- Modelled from the spec: `generateWidgetUri` (widget-helpers.ts, not
under src/) produces the call-time resource URI
`ui://widget/{name}{-buildId}-{randomSuffix}{ext}` with a fresh random
suffix per resolution; the random suffix is an explicit argument of the
embedding and the extension defaults to `.html`. -/
def generateWidgetUri (name : String) (buildId : Option String)
    (rand : String) (extension : String := ".html") : String :=
  "ui://widget/" ++ name ++ getBuildIdPart buildId ++ "-" ++ rand ++ extension

/-- The function getResourceUriAndMimeType from protocol-helpers.ts.  Its `switch`
has cases for externalUrl, rawHtml, remoteDom and mcpApps only; every
other tag (including appsSdk) falls to the throwing default case,
embedded as `Except.error`. -/
def getResourceUriAndMimeType (d : UIResourceDefinition) (buildId : Option String) :
    Except String (String × String) :=
  let buildIdPart := getBuildIdPart buildId
  match d.type with
  | WidgetType.externalUrl =>
      Except.ok ((d.href.orElse (fun _ => d.url)).getD "", "text/uri-list")
  | WidgetType.rawHtml =>
      Except.ok ("ui://widget/" ++ d.name ++ buildIdPart ++ ".html", "text/html")
  | WidgetType.remoteDom =>
      Except.ok ("ui://widget/" ++ d.name ++ buildIdPart ++ ".js",
        "application/vnd.mcp-ui.remote-dom+javascript")
  | WidgetType.mcpApps =>
      Except.ok ("ui://widget/" ++ d.name ++ buildIdPart ++ ".html",
        "text/html;profile=mcp-app")
  | _ => Except.error "Unknown widget type"

/-- One field step of `snakeCaseCspToCamelCase`:
`if (Array.isArray(wcsp.x)) result.y = wcsp.x` — the target field is
assigned exactly when the source value is an array. -/
def isArrayCopy : Option CspField → Option (List String)
  | some (CspField.arr xs) => some xs
  | _ => none

/-- The function snakeCaseCspToCamelCase from protocol-helpers.ts: each of the six
snake_case fields is copied to its camelCase counterpart exactly when it
is an array; `undefined` is returned when nothing was copied (and for a
missing input object). -/
def snakeCaseCspToCamelCase : Option SnakeCsp → Option CspConfig
  | none => none
  | some w =>
    let result : CspConfig :=
      { connectDomains := isArrayCopy w.connect_domains
        resourceDomains := isArrayCopy w.resource_domains
        frameDomains := isArrayCopy w.frame_domains
        baseUriDomains := isArrayCopy w.base_uri_domains
        scriptDirectives := isArrayCopy w.script_directives
        styleDirectives := isArrayCopy w.style_directives }
    if result.connectDomains.isSome || result.resourceDomains.isSome ||
        result.frameDomains.isSome || result.baseUriDomains.isSome ||
        result.scriptDirectives.isSome || result.styleDirectives.isSome then
      some result
    else
      none

/-! ## Definition enricher (ui-resource-registration module) -/

/-- The set-like append used by `enrichDefinitionWithServerOrigin` on
each CSP domain list: a missing list becomes `[origin]`, a list already
containing the origin is kept, otherwise the origin is appended. -/
def addOrigin (field : Option (List String)) (origin : String) : List String :=
  match field with
  | none => [origin]
  | some l => if origin ∈ l then l else l ++ [origin]

/-- The function enrichDefinitionWithServerOrigin from the registration module:
no-op unless the variant is mcpApps and a server origin is known;
otherwise ensures a CSP object exists and appends the origin to
`resourceDomains`, `connectDomains` and `baseUriDomains` when not
already present. -/
def enrichDefinitionWithServerOrigin (definition : UIResourceDefinition)
    (serverOrigin : Option String) : UIResourceDefinition :=
  match serverOrigin with
  | none => definition
  | some origin =>
    if definition.type ≠ WidgetType.mcpApps then definition
    else
      let enrichedMetadata := definition.metadata.getD {}
      let csp := enrichedMetadata.csp.getD {}
      let csp :=
        { csp with
          resourceDomains := some (addOrigin csp.resourceDomains origin)
          connectDomains := some (addOrigin csp.connectDomains origin)
          baseUriDomains := some (addOrigin csp.baseUriDomains origin) }
      { definition with metadata := some { enrichedMetadata with csp := some csp } }

/-! ## Protocol adapters (modelled) and dual-protocol metadata -/

/-- The flat tool-level metadata fragment mapping: the `ui.resourceUri`
key of the MCP Apps namespace and the `openai/`-prefixed keys of the
Apps SDK namespace. -/
structure ToolMeta where
  uiResourceUri : Option String := none
  outputTemplate : Option String := none
  invoking : Option String := none
  invoked : Option String := none
  widgetAccessible : Option Bool := none
  resultCanProduceWidget : Option Bool := none
  widgetCSP : Option SnakeCsp := none
  openaiDescription : Option String := none
deriving DecidableEq, Repr

/-- JS object spread `{...a, ...b}` on tool metadata fragments: a key of
`b` overrides the same key of `a`. -/
def mergeToolMeta (a b : ToolMeta) : ToolMeta :=
  { uiResourceUri := b.uiResourceUri.orElse (fun _ => a.uiResourceUri)
    outputTemplate := b.outputTemplate.orElse (fun _ => a.outputTemplate)
    invoking := b.invoking.orElse (fun _ => a.invoking)
    invoked := b.invoked.orElse (fun _ => a.invoked)
    widgetAccessible := b.widgetAccessible.orElse (fun _ => a.widgetAccessible)
    resultCanProduceWidget := b.resultCanProduceWidget.orElse (fun _ => a.resultCanProduceWidget)
    widgetCSP := b.widgetCSP.orElse (fun _ => a.widgetCSP)
    openaiDescription := b.openaiDescription.orElse (fun _ => a.openaiDescription) }

/-- Modelled from the spec: the camelCase → snake_case direction used by
the Apps SDK adapter when an mcpApps widget authored camelCase CSP has
to be emitted as `openai/widgetCSP`. -/
def camelCspToSnakeCase (c : CspConfig) : SnakeCsp :=
  { connect_domains := c.connectDomains.map CspField.arr
    resource_domains := c.resourceDomains.map CspField.arr
    frame_domains := c.frameDomains.map CspField.arr
    base_uri_domains := c.baseUriDomains.map CspField.arr
    script_directives := c.scriptDirectives.map CspField.arr
    style_directives := c.styleDirectives.map CspField.arr }

/-- Modelled from the spec: `McpAppsAdapter.buildToolMetadata` (adapter
class not under src/) emits `{"ui.resourceUri": uri}`. -/
def mcpAppsBuildToolMetadata (uri : String) : ToolMeta :=
  { uiResourceUri := some uri }

/-- Modelled from the spec: `AppsSdkAdapter.buildToolMetadata` (adapter
class not under src/) emits `openai/outputTemplate` plus, when present,
the invoking / invoked / widgetAccessible / resultCanProduceWidget keys
copied verbatim from the widget's Apps SDK metadata block. -/
def appsSdkBuildToolMetadata (d : UIResourceDefinition) (uri : String) : ToolMeta :=
  { outputTemplate := some uri
    invoking := d.appsSdkMetadata.bind AppsSdkMeta.invoking
    invoked := d.appsSdkMetadata.bind AppsSdkMeta.invoked
    widgetAccessible := d.appsSdkMetadata.bind AppsSdkMeta.widgetAccessible
    resultCanProduceWidget := d.appsSdkMetadata.bind AppsSdkMeta.resultCanProduceWidget }

/-- Modelled from the spec: the `openai/widgetCSP` object emitted by
`AppsSdkAdapter.buildResourceMetadata` (adapter class not under src/):
the Apps SDK metadata block's snake_case CSP when declared, otherwise
derived from the mcpApps camelCase `metadata.csp`. -/
def appsSdkResourceWidgetCSP (d : UIResourceDefinition) : Option SnakeCsp :=
  match d.appsSdkMetadata.bind AppsSdkMeta.widgetCSP with
  | some w => some w
  | none => (d.metadata.bind WidgetMetadata.csp).map camelCspToSnakeCase

/-- Modelled from the spec: the rest of
`AppsSdkAdapter.buildResourceMetadata`: the `openai/description`
string. -/
def appsSdkResourceDescription (d : UIResourceDefinition) : Option String :=
  (d.appsSdkMetadata.bind AppsSdkMeta.sdkDescription).orElse (fun _ => d.description)

/-- Modelled from the spec: `McpAppsAdapter.buildResourceMetadata`
(adapter class not under src/) emits a `ui` object with csp,
prefersBorder, domain, permissions — only the keys actually present on
the definition, i.e. the definition's metadata block. -/
def mcpAppsBuildResourceMetadata (d : UIResourceDefinition) : Option WidgetMetadata :=
  d.metadata

/-- The function buildDualProtocolMetadata from protocol-helpers.ts: merge of the
existing metadata, the MCP Apps tool fragment, the Apps SDK tool
fragment, and the Apps SDK resource-level CSP / description fragment
(placed on the tool because the Apps SDK host reads them there). -/
def buildDualProtocolMetadata (d : UIResourceDefinition) (uri : String)
    (existingMetadata : Option ToolMeta) : ToolMeta :=
  let appsSdkResourceFragment : ToolMeta :=
    { widgetCSP := appsSdkResourceWidgetCSP d
      openaiDescription := appsSdkResourceDescription d }
  mergeToolMeta
    (mergeToolMeta
      (mergeToolMeta (existingMetadata.getD {}) (mcpAppsBuildToolMetadata uri))
      (appsSdkBuildToolMetadata d uri))
    appsSdkResourceFragment

/-- True when a resource `ui` metadata object has no keys. -/
def widgetMetadataIsEmpty (m : WidgetMetadata) : Bool :=
  m.csp.isNone && m.prefersBorder.isNone && m.domain.isNone && m.permissions.isNone

/-- The function buildResourceUiMeta from protocol-helpers.ts: the MCP Apps
resource `ui` object; for an mcpApps widget the `ui.csp` entry is
derived from the Apps SDK `openai/widgetCSP` fragment via the CSP
format converter; `undefined` when the resulting object would be
empty. -/
def buildResourceUiMeta (d : UIResourceDefinition) : Option WidgetMetadata :=
  let uiMeta := mcpAppsBuildResourceMetadata d
  let uiMeta :=
    if d.type = WidgetType.mcpApps then
      match snakeCaseCspToCamelCase (appsSdkResourceWidgetCSP d) with
      | some csp => some { uiMeta.getD {} with csp := some csp }
      | none => uiMeta
    else uiMeta
  match uiMeta with
  | some m => if widgetMetadataIsEmpty m then none else some m
  | none => none

/-! ## Tool-call output builder -/

/-- The function generateToolOutput from protocol-helpers.ts: a single text content
item carrying the display name, plus the definition's structured
content (evaluated on the parameters when it is a function). -/
def generateToolOutput (d : UIResourceDefinition) (params : List (String × String))
    (displayName : String) : ToolOutputResult :=
  let base : ToolOutputResult := { content := some [ContentItem.text displayName] }
  match d.structuredContent with
  | some (StructuredSpec.func f) => { base with structuredContent := some (f params) }
  | some (StructuredSpec.static v) => { base with structuredContent := some v }
  | none => base

/-- The content produced by assembling a widget's presentation body:
records which definition and parameters it was computed from. -/
structure UIResourceContent where
  uri : String
  sourceDef : UIResourceDefinition
  callParams : List (String × String)

/-- Modelled from the spec: `createWidgetUIResource` (widget-helpers.ts,
not under src/) assembles the widget resource body for a definition;
the embedding records which definition and parameters the content was
computed from. -/
def createWidgetUIResource (d : UIResourceDefinition)
    (params : List (String × String)) : UIResourceContent :=
  { uri := "", sourceDef := d, callParams := params }

/-- Modelled from the spec: `applyDefaultProps` (widget-helpers.ts, not
under src/) derives default call parameters from a props
declaration. -/
def applyDefaultProps : Option PropsVal → List (String × String)
  | some (PropsVal.widgetProps fs) => fs.map (fun f => (f, "default"))
  | _ => []

/-- An item of a tool-call result: a plain content item or an embedded
widget resource built by `createWidgetUIResource`. -/
structure ToolCallResult where
  textItems : List ContentItem
  embeddedWidget : Option UIResourceContent
  structuredContent : Option StructuredVal

/-- The `toolCallback` closure of the registration module.  Faithful to
the source: it uses the `enrichedDefinition` it closed over — it never
consults the widget-definition store.  For appsSdk / mcpApps it returns
the author- or generator-supplied content (text items only) and the
structured content defaulting to the call parameters; for legacy
variants it returns a text item plus the embedded widget resource. -/
def toolCallback (enrichedDefinition : UIResourceDefinition) (displayName : String)
    (params : List (String × String)) : ToolCallResult :=
  if enrichedDefinition.type = WidgetType.appsSdk ∨
      enrichedDefinition.type = WidgetType.mcpApps then
    let toolOutputResult :=
      match enrichedDefinition.toolOutput with
      | some (ToolOutputSpec.func f) => f params
      | some (ToolOutputSpec.static r) => r
      | none => generateToolOutput enrichedDefinition params displayName
    { textItems := toolOutputResult.content.getD [ContentItem.text displayName]
      embeddedWidget := none
      structuredContent :=
        some (toolOutputResult.structuredContent.getD (StructuredVal.params params)) }
  else
    { textItems := [ContentItem.text ("Displaying " ++ displayName)]
      embeddedWidget := some (createWidgetUIResource enrichedDefinition params)
      structuredContent := none }

/-! ## Registrar / hot-update reconciler state -/

/-- The minimal bookkeeping stored in the shared widget-definition store
(`server.widgetDefinitions.set`, lines 517–523): the variant tag and,
for mcpApps, the CSP-relevant metadata.  The `mcp-use/fullDefinition`
key read back by `getLatestDefinition` is part of the record shape but
is never written by this module. -/
structure StoredWidget where
  widgetType : WidgetType
  metadata : Option WidgetMetadata
  fullDefinition : Option UIResourceDefinition

/-- The listing-level `_meta` placed on resource and resource-template
records: the definition's public `_meta` keys plus the `ui` object. -/
structure ResourceMeta where
  extras : List (String × String)
  ui : Option WidgetMetadata

/-- Config of a registered resource record. -/
structure ResourceConfig where
  name : String
  uri : String
  title : Option String
  description : Option String
  mimeType : String
  meta : ResourceMeta
  annotations : Option String

/-- The `resourceReadCallback` closure: it captures the enriched
definition and the registration-time resource URI. -/
structure ResourceHandler where
  captured : UIResourceDefinition
  capturedUri : String

/-- A resource record held by the server's registrations map.  `id` is
the allocation identity of the record object; in-place config / handler
mutation preserves it. -/
structure ResourceRecord where
  id : Nat
  config : ResourceConfig
  handler : ResourceHandler

/-- Config of a registered resource-template record. -/
structure TemplateConfig where
  name : String
  uriTemplate : String
  templateName : String
  description : Option String
  mimeType : String
  meta : ResourceMeta
  title : Option String
  annotations : Option String

/-- The `templateReadCallback` closure: it captures the enriched
definition. -/
structure TemplateHandler where
  captured : UIResourceDefinition

/-- A resource-template record held by the server's registrations map. -/
structure TemplateRecord where
  id : Nat
  config : TemplateConfig
  handler : TemplateHandler

/-- Config of a registered tool record.  `widgetRef` is the `widget`
config a custom tool can carry to reference a widget by name; tools
registered by `uiResourceRegistration` itself have none. -/
structure ToolConfig where
  name : String
  title : Option String
  description : Option String
  annotations : Option String
  meta : Option ToolMeta
  inputs : Option (List String)
  schema : Option PropsVal
  widgetRef : Option String

/-- The `toolCallback` closure: it captures the enriched definition and
the display name. -/
structure ToolHandler where
  captured : UIResourceDefinition
  displayName : String

/-- A tool record held by the server's registrations map. -/
structure ToolRecord where
  id : Nat
  config : ToolConfig
  handler : ToolHandler

/-- A notification handed to a live session's notifier capability. -/
inductive NotifyEvent where
  | resourceListChanged (sessionId : String) (widgetName : String)
  | toolListChanged (sessionId : String) (delayed : Bool)
deriving DecidableEq, Repr

/-- The state visible to `uiResourceRegistration`: the server's config,
the shared widget-definition store, the three registrations maps, the
live session set, the notification log, counters of how many times the
server's resource / resourceTemplate / tool registration functions were
invoked, and the record-identity allocator. -/
structure ServerState where
  serverOrigin : Option String
  buildId : Option String
  widgetDefinitions : List (String × StoredWidget)
  resources : List (String × ResourceRecord)
  resourceTemplates : List (String × TemplateRecord)
  tools : List (String × ToolRecord)
  sessions : List String
  notifications : List NotifyEvent
  resourceCalls : Nat
  templateCalls : Nat
  toolRegCalls : Nat
  nextId : Nat

/-! ## Handler invocation semantics -/

/-- The function getLatestDefinition from the registration module: read the stored
record for the captured definition's name and use its
`mcp-use/fullDefinition` when present, falling back to the captured
(registration-time) definition. -/
def getLatestDefinition (widgetDefinitions : List (String × StoredWidget))
    (captured : UIResourceDefinition) : UIResourceDefinition :=
  match (mapGet captured.name widgetDefinitions).bind StoredWidget.fullDefinition with
  | some full => full
  | none => captured

/-- The value returned from a resources/read call. -/
structure ReadResult where
  contents : List UIResourceContent

/-- Invoking a resource record's `resourceReadCallback`. -/
def invokeResourceRead (st : ServerState) (h : ResourceHandler) : ReadResult :=
  let latestDef := getLatestDefinition st.widgetDefinitions h.captured
  let params :=
    if latestDef.type = WidgetType.externalUrl then applyDefaultProps latestDef.props else []
  let uiResource := createWidgetUIResource latestDef params
  { contents := [{ uiResource with uri := h.capturedUri }] }

/-- Invoking a resource-template record's `templateReadCallback` on a
concrete matched URI. -/
def invokeTemplateRead (st : ServerState) (h : TemplateHandler) (uri : String) : ReadResult :=
  let latestDef := getLatestDefinition st.widgetDefinitions h.captured
  let uiResource := createWidgetUIResource latestDef []
  { contents := [{ uiResource with uri := uri }] }

/-- Invoking a tool record's `toolCallback`. -/
def invokeToolHandler (h : ToolHandler) (params : List (String × String)) : ToolCallResult :=
  toolCallback h.captured h.displayName params

/-! ## The registration step -/

/-- The variant switch of `uiResourceRegistration` (lines 551–588)
resolving the resource URI and MIME type, with the throwing default
case embedded as `Except.error`. -/
def resolveRegistrationUriAndMime (enriched : UIResourceDefinition)
    (buildId : Option String) (rand : String) : Except String (String × String) :=
  match enriched.type with
  | WidgetType.externalUrl =>
      Except.ok (generateWidgetUri (enriched.widget.getD "") buildId rand, "text/uri-list")
  | WidgetType.rawHtml =>
      Except.ok (generateWidgetUri enriched.name buildId rand, "text/html")
  | WidgetType.remoteDom =>
      Except.ok (generateWidgetUri enriched.name buildId rand,
        "application/vnd.mcp-ui.remote-dom+javascript")
  | WidgetType.appsSdk =>
      Except.ok (generateWidgetUri enriched.name buildId rand ".html", "text/html+skybridge")
  | WidgetType.mcpApps =>
      Except.ok (generateWidgetUri enriched.name buildId rand ".html", "text/html;profile=mcp-app")
  | WidgetType.unknownTag _ =>
      Except.error "Unsupported UI resource type"

/-- The public part of a definition's `_meta` (every key except
`mcp-use/widget` and `ui`). -/
def defMetaPublic (d : UIResourceDefinition) : List (String × String) :=
  match d.meta with
  | some m => m.extras
  | none => []

/-- The exposeAsTool resolution (lines 739–743): the definition's own
field when set, then the `_meta["mcp-use/widget"].exposeAsTool`
fallback, then `true`. -/
def resolveExposeAsTool (d : UIResourceDefinition) : Bool :=
  d.exposeAsTool.getD
    (((d.meta.bind DefMeta.widget).bind McpUseWidgetMeta.exposeAsTool).getD true)

/-- Modelled from the spec: `propagateWidgetResourcesToSessions` (server
method, not under src/) pushes the newly created resources to every
live session's resource-list-changed notifier, best-effort per
session. -/
def propagateWidgetResourcesToSessions (st : ServerState) (widgetName : String) : ServerState :=
  { st with notifications :=
      st.notifications ++ st.sessions.map (fun s => NotifyEvent.resourceListChanged s widgetName) }

/-- Modelled from the spec: `convertPropsToInputs` (widget-helpers.ts,
not under src/) converts a legacy untyped WidgetProps map into the
input-definition list. -/
def convertPropsToInputs : PropsVal → List String
  | PropsVal.widgetProps fs => fs
  | PropsVal.jsonSchema _ _ ps _ => ps.getD []
  | PropsVal.zod _ => []

/-- Lines 506–545: store the minimal widget definition (appsSdk /
mcpApps only; variant tag plus, for mcpApps, the metadata; no full
definition) and, for mcpApps, patch the dual-protocol metadata of
every existing tool whose `widget` config references this widget. -/
def storedWidgetOf (enriched : UIResourceDefinition) : StoredWidget :=
  { widgetType := enriched.type
    metadata := if enriched.type = WidgetType.mcpApps then enriched.metadata else none
    fullDefinition := none }

/-- The per-record part of the referencing-tools patch (lines 527–544):
a tool whose `widget` config names this widget gets its dual-protocol
metadata rebuilt. -/
def widgetToolPatch (enriched : UIResourceDefinition) (buildId : Option String)
    (r : ToolRecord) : ToolRecord :=
  if r.config.widgetRef = some enriched.name then
    let outputTemplate := "ui://widget/" ++ enriched.name ++ getBuildIdPart buildId ++ ".html"
    let newMeta := some (buildDualProtocolMetadata enriched outputTemplate r.config.meta)
    { r with config := { r.config with meta := newMeta } }
  else r

def storeWidgetDefinitionPhase (st : ServerState) (enriched : UIResourceDefinition) : ServerState :=
  if enriched.type = WidgetType.appsSdk ∨ enriched.type = WidgetType.mcpApps then
    let newStore := mapSet enriched.name (storedWidgetOf enriched) st.widgetDefinitions
    let st1 := { st with widgetDefinitions := newStore }
    if enriched.type = WidgetType.mcpApps then
      { st1 with tools :=
          st1.tools.map (fun kv => (kv.1, widgetToolPatch enriched st.buildId kv.2)) }
    else st1
  else st

/-- The resource record created by an initial registration. -/
def newResourceRecord (id : Nat) (enriched : UIResourceDefinition)
    (resourceUri mimeType : String) (resourceMeta : ResourceMeta) : ResourceRecord :=
  { id := id
    config := { name := enriched.name, uri := resourceUri, title := enriched.title
                description := enriched.description, mimeType := mimeType
                meta := resourceMeta, annotations := enriched.annotations }
    handler := { captured := enriched, capturedUri := resourceUri } }

/-- The resource-template record created by an initial registration. -/
def newTemplateRecord (id : Nat) (buildId : Option String) (enriched : UIResourceDefinition)
    (mimeType : String) (resourceMeta : ResourceMeta) : TemplateRecord :=
  { id := id
    config := { name := enriched.name ++ "-dynamic"
                uriTemplate :=
                  "ui://widget/" ++ enriched.name ++ getBuildIdPart buildId ++ "-{id}.html"
                templateName := enriched.title.getD enriched.name
                description := enriched.description, mimeType := mimeType
                meta := resourceMeta, title := enriched.title
                annotations := enriched.annotations }
    handler := { captured := enriched } }

/-- The in-place mutation a hot update performs on the existing resource
record: replace `config._meta` and `handler`. -/
def hmrResourceUpdate (enriched : UIResourceDefinition) (resourceUri : String)
    (resourceMeta : ResourceMeta) (r : ResourceRecord) : ResourceRecord :=
  { r with config := { r.config with meta := resourceMeta }
           handler := { captured := enriched, capturedUri := resourceUri } }

/-- The in-place mutation a hot update performs on the existing
resource-template record. -/
def hmrTemplateUpdate (enriched : UIResourceDefinition) (resourceMeta : ResourceMeta)
    (r : TemplateRecord) : TemplateRecord :=
  { r with config := { r.config with meta := resourceMeta }
           handler := { captured := enriched } }

/-- Lines 675–735: initial registration creates the resource record
(and, for appsSdk / mcpApps, the resource-template record); a hot
update instead replaces `config._meta` and `handler` on the existing
records in place, looked up under `name:resourceUri` and
`name-dynamic`. -/
def resourcePhase (st : ServerState) (enriched : UIResourceDefinition) (isUpdate : Bool)
    (resourceUri : String) (mimeType : String) (resourceMeta : ResourceMeta) : ServerState :=
  if isUpdate = false then
    let st1 := { st with
      resources := mapSet (enriched.name ++ ":" ++ resourceUri)
        (newResourceRecord st.nextId enriched resourceUri mimeType resourceMeta) st.resources
      resourceCalls := st.resourceCalls + 1
      nextId := st.nextId + 1 }
    if enriched.type = WidgetType.appsSdk ∨ enriched.type = WidgetType.mcpApps then
      { st1 with
        resourceTemplates := mapSet (enriched.name ++ "-dynamic")
          (newTemplateRecord st1.nextId st.buildId enriched mimeType resourceMeta)
          st1.resourceTemplates
        templateCalls := st1.templateCalls + 1
        nextId := st1.nextId + 1 }
    else st1
  else
    let newResources := mapUpdate (enriched.name ++ ":" ++ resourceUri)
      (hmrResourceUpdate enriched resourceUri resourceMeta) st.resources
    let st1 := { st with resources := newResources }
    let newTemplates := mapUpdate (enriched.name ++ "-dynamic")
      (hmrTemplateUpdate enriched resourceMeta) st1.resourceTemplates
    { st1 with resourceTemplates := newTemplates }

/-- Lines 760–791: the tool metadata fragment — the Apps SDK fields when
the variant is appsSdk with an appsSdkMetadata block, the full
dual-protocol metadata for mcpApps, empty otherwise. -/
def buildToolMetadataPhase (enriched : UIResourceDefinition) (resourceUri : String) : ToolMeta :=
  if enriched.type = WidgetType.appsSdk ∧ enriched.appsSdkMetadata.isSome then
    { outputTemplate := some resourceUri
      invoking := enriched.appsSdkMetadata.bind AppsSdkMeta.invoking
      invoked := enriched.appsSdkMetadata.bind AppsSdkMeta.invoked
      widgetAccessible := enriched.appsSdkMetadata.bind AppsSdkMeta.widgetAccessible
      resultCanProduceWidget := enriched.appsSdkMetadata.bind AppsSdkMeta.resultCanProduceWidget }
  else if enriched.type = WidgetType.mcpApps then
    buildDualProtocolMetadata enriched resourceUri (some {})
  else {}

/-- True when the tool metadata object has at least one key
(`Object.keys(toolMetadata).length > 0`). -/
def toolMetaNonEmpty (m : ToolMeta) : Bool :=
  m.uiResourceUri.isSome || m.outputTemplate.isSome || m.invoking.isSome ||
    m.invoked.isSome || m.widgetAccessible.isSome || m.resultCanProduceWidget.isSome ||
    m.widgetCSP.isSome || m.openaiDescription.isSome

/-- The tool definition assembled before registration. -/
structure ToolDefinition where
  name : String
  title : Option String
  description : Option String
  annotations : Option String
  meta : Option ToolMeta
  inputs : Option (List String)
  schema : Option PropsVal

/-- Lines 793–869: schema-source detection (Zod schema, JSON-schema-
shaped object, legacy WidgetProps) and assembly of the tool
definition. -/
def buildToolDefinition (enriched : UIResourceDefinition) (resourceUri : String) : ToolDefinition :=
  let toolMetadata := buildToolMetadataPhase enriched resourceUri
  let widgetMetadataSchema := enriched.meta.bind DefMeta.widget
  let propsOrSchema :=
    ((enriched.props.orElse
        (fun _ => widgetMetadataSchema.bind McpUseWidgetMeta.props)).orElse
      (fun _ => widgetMetadataSchema.bind McpUseWidgetMeta.inputs)).orElse
      (fun _ => widgetMetadataSchema.bind McpUseWidgetMeta.schema)
  let isZodSchema := match propsOrSchema with
    | some (PropsVal.zod _) => true | _ => false
  let isJsonSchema := match propsOrSchema with
    | some (PropsVal.jsonSchema hasSchemaKey typeIsObject properties _) =>
        hasSchemaKey || (typeIsObject && properties.isSome)
    | _ => false
  let base : ToolDefinition :=
    { name := enriched.name, title := enriched.title, description := enriched.description
      annotations := enriched.toolAnnotations
      meta := if toolMetaNonEmpty toolMetadata then some toolMetadata else none
      inputs := none, schema := none }
  if isZodSchema then { base with schema := propsOrSchema }
  else if isJsonSchema then
    match propsOrSchema with
    | some (PropsVal.jsonSchema _ _ (some ps) _) => { base with inputs := some ps }
    | _ => base
  else
    match propsOrSchema with
    | some v => { base with inputs := some (convertPropsToInputs v) }
    | none => base

/-- The tool record created by an initial registration. -/
def newToolRecord (id : Nat) (toolDefinition : ToolDefinition)
    (enriched : UIResourceDefinition) (displayName : String) : ToolRecord :=
  { id := id
    config := { name := toolDefinition.name, title := toolDefinition.title
                description := toolDefinition.description
                annotations := toolDefinition.annotations
                meta := toolDefinition.meta, inputs := toolDefinition.inputs
                schema := toolDefinition.schema, widgetRef := none }
    handler := { captured := enriched, displayName := displayName } }

/-- The in-place mutation a hot update performs on the existing tool
record: overwrite the config fields carried by the new tool definition
and replace the handler. -/
def hmrToolUpdate (toolDefinition : ToolDefinition) (enriched : UIResourceDefinition)
    (displayName : String) (r : ToolRecord) : ToolRecord :=
  { r with
    config := { r.config with
      title := toolDefinition.title
      description := toolDefinition.description
      annotations := toolDefinition.annotations
      meta := toolDefinition.meta
      inputs := toolDefinition.inputs
      schema := toolDefinition.schema }
    handler := { captured := enriched, displayName := displayName } }

/-- Lines 756–982: register the tool only when exposeAsTool resolves to
true.  A hot update mutates the existing tool record in place and
notifies sessions immediately; an initial registration creates the
record and schedules the delayed tool-list-changed notifications. -/
def toolPhase (st : ServerState) (enriched : UIResourceDefinition) (isUpdate : Bool)
    (resourceUri : String) (displayName : String) : ServerState :=
  if resolveExposeAsTool enriched then
    let toolDefinition := buildToolDefinition enriched resourceUri
    if isUpdate then
      match mapGet enriched.name st.tools with
      | some _ =>
        let newTools :=
          mapUpdate enriched.name (hmrToolUpdate toolDefinition enriched displayName) st.tools
        let st1 := { st with tools := newTools }
        let immediateNotes := st1.sessions.map (fun s => NotifyEvent.toolListChanged s false)
        { st1 with notifications := st1.notifications ++ immediateNotes }
      | none => st
    else
      { st with
        tools := mapSet enriched.name
          (newToolRecord st.nextId toolDefinition enriched displayName) st.tools
        toolRegCalls := st.toolRegCalls + 1
        nextId := st.nextId + 1
        notifications := st.notifications ++
          st.sessions.map (fun s => NotifyEvent.toolListChanged s true) }
  else st

/-- The listing-level `_meta` computed for the resource and
resource-template records (lines 598–624): the public `_meta` keys plus
the `ui` object built for mcpApps widgets. -/
def resourceMetaOf (enriched : UIResourceDefinition) : ResourceMeta :=
  { extras := defMetaPublic enriched
    ui := if enriched.type = WidgetType.mcpApps then buildResourceUiMeta enriched else none }

/-- The function uiResourceRegistration: one registration (or hot-update) step.
The fresh random draw consumed by `generateWidgetUri` during this call
is the explicit `rand` argument. -/
def uiResourceRegistration (st : ServerState) (definition : UIResourceDefinition)
    (rand : String) : Except String ServerState :=
  let displayName := definition.title.getD definition.name
  let enriched := enrichDefinitionWithServerOrigin definition st.serverOrigin
  let isUpdate := (mapGet enriched.name st.widgetDefinitions).isSome
  let st0 := storeWidgetDefinitionPhase st enriched
  match resolveRegistrationUriAndMime enriched st0.buildId rand with
  | Except.error e => Except.error e
  | Except.ok (resourceUri, mimeType) =>
    let st1 := resourcePhase st0 enriched isUpdate resourceUri mimeType (resourceMetaOf enriched)
    let st2 :=
      if isUpdate = false then propagateWidgetResourcesToSessions st1 enriched.name else st1
    Except.ok (toolPhase st2 enriched isUpdate resourceUri displayName)

/-! ## Derived accessors and auxiliary definitions -/

/-- The effective CSP block of a definition (empty when the metadata or
its csp entry is absent), as read and rebuilt by the enricher. -/
def cspLists (d : UIResourceDefinition) : CspConfig :=
  (d.metadata.getD {}).csp.getD {}

/-- The resourceDomains list of a definition (empty when absent). -/
def cspResourceDomains (d : UIResourceDefinition) : List String :=
  (cspLists d).resourceDomains.getD []

/-- The connectDomains list of a definition (empty when absent). -/
def cspConnectDomains (d : UIResourceDefinition) : List String :=
  (cspLists d).connectDomains.getD []

/-- The baseUriDomains list of a definition (empty when absent). -/
def cspBaseUriDomains (d : UIResourceDefinition) : List String :=
  (cspLists d).baseUriDomains.getD []

/-- The metadata block of a definition (empty when absent). -/
def metaBlock (d : UIResourceDefinition) : WidgetMetadata :=
  d.metadata.getD {}

/-- The CSP block produced by enrichment with origin `o` (explicit form
of the block the enricher builds). -/
def enrichedCspOf (d : UIResourceDefinition) (o : String) : CspConfig :=
  { (cspLists d) with
    resourceDomains := some (addOrigin (cspLists d).resourceDomains o)
    connectDomains := some (addOrigin (cspLists d).connectDomains o)
    baseUriDomains := some (addOrigin (cspLists d).baseUriDomains o) }

/-- The enriched definition in explicit form (the value
`enrichDefinitionWithServerOrigin` returns for an mcpApps definition
and a known origin). -/
def enrichedFormOf (d : UIResourceDefinition) (o : String) : UIResourceDefinition :=
  { d with metadata := some { (metaBlock d) with csp := some (enrichedCspOf d o) } }

/-- Run one registration step, keeping the previous state on error. -/
def regStep (st : ServerState) (d : UIResourceDefinition) (rand : String) : ServerState :=
  match uiResourceRegistration st d rand with
  | Except.ok st1 => st1
  | Except.error _ => st

/-- Whether a registration step succeeded. -/
def regOk (e : Except String ServerState) : Bool :=
  match e with
  | Except.ok _ => true
  | Except.error _ => false

/-- A server state with no registrations, no stored widgets and no
pending notifications. -/
def emptyState (o b : Option String) (sessions : List String) : ServerState :=
  { serverOrigin := o, buildId := b, widgetDefinitions := [], resources := []
    resourceTemplates := [], tools := [], sessions := sessions, notifications := []
    resourceCalls := 0, templateCalls := 0, toolRegCalls := 0, nextId := 0 }

/-! ## Specification-side reference definitions

The following definitions transcribe the wording of the specification
(not the source); the theorems compare the source embedding against
them. -/

/-- The MIME type by variant exactly as the specification lists it, and
failure (`InvalidWidgetType`) for an unrecognized variant. -/
def specMimeByVariant : WidgetType → Option String
  | WidgetType.externalUrl => some "text/uri-list"
  | WidgetType.rawHtml => some "text/html"
  | WidgetType.remoteDom => some "application/vnd.mcp-ui.remote-dom+javascript"
  | WidgetType.appsSdk => some "text/html+skybridge"
  | WidgetType.mcpApps => some "text/html;profile=mcp-app"
  | WidgetType.unknownTag _ => none

/-- The MIME type a URI / MIME resolver produced, or `none` when it
failed with an `InvalidWidgetType` error. -/
def mimeOutcome (e : Except String (String × String)) : Option String :=
  e.toOption.map Prod.snd

/-- One field of the CSP format conversion as the specification states
it: copied exactly when the source value is an array, silently dropped
otherwise. -/
def specCspConvertField : Option CspField → Option (List String)
  | some (CspField.arr xs) => some xs
  | _ => none

/-- The CSP format conversion as the specification states it: the six
fields mapped field by field, and no result at all exactly when no
field was converted. -/
def specCspConverter : Option SnakeCsp → Option CspConfig
  | none => none
  | some w =>
    let r : CspConfig :=
      { connectDomains := specCspConvertField w.connect_domains
        resourceDomains := specCspConvertField w.resource_domains
        frameDomains := specCspConvertField w.frame_domains
        baseUriDomains := specCspConvertField w.base_uri_domains
        scriptDirectives := specCspConvertField w.script_directives
        styleDirectives := specCspConvertField w.style_directives }
    if r = ({} : CspConfig) then none else some r

/-- The exposeAsTool resolution as the specification states it: the
definition's own tri-state field wins, then the legacy fallback, then
`true`. -/
def specExposeAsTool (direct fallback : Option Bool) : Bool :=
  match direct with
  | some b => b
  | none =>
    match fallback with
    | some b => b
    | none => true

/-- The legacy `_meta["mcp-use/widget"].exposeAsTool` fallback of a
definition. -/
def fallbackExposeAsTool (d : UIResourceDefinition) : Option Bool :=
  (d.meta.bind DefMeta.widget).bind McpUseWidgetMeta.exposeAsTool

/-! ## Concrete instances used by counterexamples and witnesses -/

/-- A minimal mcpApps widget definition with title `A`. -/
def wDefA : UIResourceDefinition :=
  { name := "w", type := WidgetType.mcpApps, title := some "A" }

/-- The same widget name hot-updated with title `B`. -/
def wDefB : UIResourceDefinition :=
  { name := "w", type := WidgetType.mcpApps, title := some "B" }

/-- The state after registering `wDefA` and then hot-updating with
`wDefB`, with fresh random draws `r1` and `r2`. -/
def wState1 : ServerState := regStep (emptyState none none ["s1"]) wDefA "r1"

/-- Second registration (hot update) of the same name. -/
def wState2 : ServerState := regStep wState1 wDefB "r2"

/-- The key under which the first registration's resource record is
stored (`name:resourceUri` with the first random draw). -/
def wKey1 : String := "w:ui://widget/w-r1.html"

/-- A legacy rawHtml widget definition. -/
def rawDef : UIResourceDefinition :=
  { name := "w", type := WidgetType.rawHtml, title := some "Raw" }

/-- The state after registering the rawHtml widget twice. -/
def rawState2 : ServerState :=
  regStep (regStep (emptyState none none ["s1"]) rawDef "aaa") rawDef "bbb"

/-- An appsSdk widget definition shaped like the ones in the
integration tests. -/
def autoWidgetDef : UIResourceDefinition :=
  { name := "auto-widget", type := WidgetType.appsSdk, title := some "Auto Widget" }

/-- An mcpApps widget whose resourceDomains list already contains the
server origin twice. -/
def dupCspDef : UIResourceDefinition :=
  { name := "w", type := WidgetType.mcpApps
    metadata := some { csp := some { resourceDomains := some ["o", "o"] } } }

/-- A plain mcpApps widget with no declared CSP. -/
def kanbanDef : UIResourceDefinition :=
  { name := "kanban", type := WidgetType.mcpApps, title := some "Kanban Board" }

/-- The display name used for a registered widget (`title || name`). -/
def displayNameOf (d : UIResourceDefinition) : String :=
  d.title.getD d.name

/-- The resource records with their allocation identities: key and id
of every record, in map order. -/
def resourceIds (st : ServerState) : List (String × Nat) :=
  st.resources.map (fun kv => (kv.1, kv.2.id))

/-- The resource-template records with their allocation identities. -/
def templateIds (st : ServerState) : List (String × Nat) :=
  st.resourceTemplates.map (fun kv => (kv.1, kv.2.id))

/-- The tool records with their allocation identities. -/
def toolIds (st : ServerState) : List (String × Nat) :=
  st.tools.map (fun kv => (kv.1, kv.2.id))

/-- The explicit server state after a first registration of an
appsSdk / mcpApps definition on an empty server. -/
def stateAfterFirst (o b : Option String) (sess : List String)
    (d : UIResourceDefinition) (r : String) : ServerState :=
  let e := enrichDefinitionWithServerOrigin d o
  let uri := generateWidgetUri e.name b r ".html"
  let mime := if e.type = WidgetType.appsSdk then "text/html+skybridge"
    else "text/html;profile=mcp-app"
  let m := resourceMetaOf e
  let base : ServerState :=
    { serverOrigin := o, buildId := b
      widgetDefinitions := [(e.name, storedWidgetOf e)]
      resources := [(e.name ++ ":" ++ uri, newResourceRecord 0 e uri mime m)]
      resourceTemplates := [(e.name ++ "-dynamic", newTemplateRecord 1 b e mime m)]
      tools := []
      sessions := sess
      notifications := sess.map (fun s => NotifyEvent.resourceListChanged s e.name)
      resourceCalls := 1, templateCalls := 1, toolRegCalls := 0, nextId := 2 }
  if resolveExposeAsTool e then
    { base with
      tools := [(e.name, newToolRecord 2 (buildToolDefinition e uri) e (displayNameOf d))]
      toolRegCalls := 1
      nextId := 3
      notifications := base.notifications ++
        sess.map (fun s => NotifyEvent.toolListChanged s true) }
  else base

/-! ## Basic lemmas about the map model -/

theorem mapGet_set_self {α : Type} (k : String) (v : α) (m : List (String × α)) :
    mapGet k (mapSet k v m) = some v := by
  induction m with
  | nil => simp [mapGet, mapSet]
  | cons kv t ih =>
    obtain ⟨a, b⟩ := kv
    by_cases h : k = a
    · simp [mapGet, mapSet, h]
    · simp [mapGet, mapSet, h, ih]

theorem mapGet_update_get {α : Type} (k : String) (f : α → α) (m : List (String × α)) :
    mapGet k (mapUpdate k f m) = (mapGet k m).map f := by
  induction m with
  | nil => rfl
  | cons kv t ih =>
    obtain ⟨a, b⟩ := kv
    simp only [mapUpdate, List.map_cons]
    by_cases h : a = k
    · subst h
      simp only [if_pos rfl]
      simp [mapGet, mapUpdate]
    · have h2 : ¬k = a := fun hh => h hh.symm
      simp only [if_neg h]
      simp only [mapGet, if_neg h2]
      simpa [mapUpdate] using ih

theorem length_mapUpdate {α : Type} (k : String) (f : α → α) (m : List (String × α)) :
    (mapUpdate k f m).length = m.length := by
  simp [mapUpdate]

theorem mapGet_map_value {α : Type} (k : String) (g : α → α) (m : List (String × α)) :
    mapGet k (m.map (fun kv => (kv.1, g kv.2))) = (mapGet k m).map g := by
  induction m with
  | nil => simp [mapGet]
  | cons kv t ih =>
    obtain ⟨a, b⟩ := kv
    by_cases h : k = a
    · simp [mapGet, h]
    · simp [mapGet, h, ih]

theorem idview_mapUpdate {α : Type} (p : α → Nat) (k : String) (f : α → α)
    (hp : ∀ r, p (f r) = p r) (m : List (String × α)) :
    (mapUpdate k f m).map (fun kv => (kv.1, p kv.2)) = m.map (fun kv => (kv.1, p kv.2)) := by
  induction m with
  | nil => rfl
  | cons kv t ih =>
    obtain ⟨a, b⟩ := kv
    by_cases h : a = k
    · simp [mapUpdate, h, hp] at ih ⊢
      exact ih
    · simp only [mapUpdate, List.map_cons] at ih ⊢
      simp [h, ih, mapUpdate]

theorem idview_map_value {α : Type} (p : α → Nat) (g : α → α)
    (hp : ∀ r, p (g r) = p r) (m : List (String × α)) :
    (m.map (fun kv => (kv.1, g kv.2))).map (fun kv => (kv.1, p kv.2)) =
      m.map (fun kv => (kv.1, p kv.2)) := by
  induction m with
  | nil => rfl
  | cons kv t ih => simp [ih, hp]

theorem mapGet_map_value_none {α : Type} (k : String) (g : α → α) (m : List (String × α))
    (h : mapGet k m = none) :
    mapGet k (m.map (fun kv => (kv.1, g kv.2))) = none := by
  rw [mapGet_map_value, h]
  rfl

/-! ## String lemmas -/

theorem string_sandwich_inj (A e r1 r2 : String) :
    A ++ r1 ++ e = A ++ r2 ++ e ↔ r1 = r2 := by
  constructor
  · intro h
    have hd : (A ++ r1 ++ e).data = (A ++ r2 ++ e).data := congrArg String.data h
    rw [String.data_append, String.data_append, String.data_append, String.data_append] at hd
    have h1 := List.append_cancel_right hd
    have h2 := List.append_cancel_left h1
    cases r1
    cases r2
    simp_all
  · intro h
    rw [h]

theorem string_left_inj (A r1 r2 : String) :
    A ++ r1 = A ++ r2 ↔ r1 = r2 := by
  constructor
  · intro h
    have hd : (A ++ r1).data = (A ++ r2).data := congrArg String.data h
    rw [String.data_append, String.data_append] at hd
    have h1 := List.append_cancel_left hd
    cases r1
    cases r2
    simp_all
  · intro h
    rw [h]

/-! ## Lemmas about the enricher -/

theorem mem_addOrigin (x : Option (List String)) (o : String) : o ∈ addOrigin x o := by
  cases x with
  | none => simp [addOrigin]
  | some l =>
    simp only [addOrigin]
    split
    · assumption
    · simp

theorem addOrigin_idem (x : Option (List String)) (o : String) :
    addOrigin (some (addOrigin x o)) o = addOrigin x o := by
  show (if o ∈ addOrigin x o then addOrigin x o else addOrigin x o ++ [o]) = addOrigin x o
  rw [if_pos (mem_addOrigin x o)]

theorem count_addOrigin (x : Option (List String)) (o : String)
    (h : (x.getD []).count o ≤ 1) :
    (addOrigin x o).count o ≤ 1 := by
  cases x with
  | none => simp [addOrigin]
  | some l =>
    simp only [Option.getD_some] at h
    simp only [addOrigin]
    split
    · exact h
    · rename_i hmem
      rw [List.count_append]
      rw [List.count_eq_zero.mpr hmem]
      simp

theorem getD_prefixOf_addOrigin (x : Option (List String)) (o : String) :
    x.getD [] <+: addOrigin x o := by
  cases x with
  | none => simp [addOrigin]
  | some l =>
    simp only [addOrigin, Option.getD_some]
    split
    · exact ⟨[], List.append_nil l⟩
    · exact ⟨[o], rfl⟩

theorem enrich_name (d : UIResourceDefinition) (o : Option String) :
    (enrichDefinitionWithServerOrigin d o).name = d.name := by
  cases o with
  | none => rfl
  | some o1 =>
    simp only [enrichDefinitionWithServerOrigin]
    split <;> rfl

theorem enrich_type (d : UIResourceDefinition) (o : Option String) :
    (enrichDefinitionWithServerOrigin d o).type = d.type := by
  cases o with
  | none => rfl
  | some o1 =>
    simp only [enrichDefinitionWithServerOrigin]
    split <;> rfl

theorem enrich_title (d : UIResourceDefinition) (o : Option String) :
    (enrichDefinitionWithServerOrigin d o).title = d.title := by
  cases o with
  | none => rfl
  | some o1 =>
    simp only [enrichDefinitionWithServerOrigin]
    split <;> rfl

theorem enrich_description (d : UIResourceDefinition) (o : Option String) :
    (enrichDefinitionWithServerOrigin d o).description = d.description := by
  cases o with
  | none => rfl
  | some o1 =>
    simp only [enrichDefinitionWithServerOrigin]
    split <;> rfl

theorem enrich_widget (d : UIResourceDefinition) (o : Option String) :
    (enrichDefinitionWithServerOrigin d o).widget = d.widget := by
  cases o with
  | none => rfl
  | some o1 =>
    simp only [enrichDefinitionWithServerOrigin]
    split <;> rfl

theorem enrich_href (d : UIResourceDefinition) (o : Option String) :
    (enrichDefinitionWithServerOrigin d o).href = d.href := by
  cases o with
  | none => rfl
  | some o1 =>
    simp only [enrichDefinitionWithServerOrigin]
    split <;> rfl

theorem enrich_url (d : UIResourceDefinition) (o : Option String) :
    (enrichDefinitionWithServerOrigin d o).url = d.url := by
  cases o with
  | none => rfl
  | some o1 =>
    simp only [enrichDefinitionWithServerOrigin]
    split <;> rfl

theorem enrich_props (d : UIResourceDefinition) (o : Option String) :
    (enrichDefinitionWithServerOrigin d o).props = d.props := by
  cases o with
  | none => rfl
  | some o1 =>
    simp only [enrichDefinitionWithServerOrigin]
    split <;> rfl

theorem enrich_annotationList (d : UIResourceDefinition) (o : Option String) :
    (enrichDefinitionWithServerOrigin d o).annotations = d.annotations := by
  cases o with
  | none => rfl
  | some o1 =>
    simp only [enrichDefinitionWithServerOrigin]
    split <;> rfl

theorem enrich_toolAnnotationList (d : UIResourceDefinition) (o : Option String) :
    (enrichDefinitionWithServerOrigin d o).toolAnnotations = d.toolAnnotations := by
  cases o with
  | none => rfl
  | some o1 =>
    simp only [enrichDefinitionWithServerOrigin]
    split <;> rfl

theorem enrich_exposeAsTool (d : UIResourceDefinition) (o : Option String) :
    (enrichDefinitionWithServerOrigin d o).exposeAsTool = d.exposeAsTool := by
  cases o with
  | none => rfl
  | some o1 =>
    simp only [enrichDefinitionWithServerOrigin]
    split <;> rfl

theorem enrich_appsSdkMetadata (d : UIResourceDefinition) (o : Option String) :
    (enrichDefinitionWithServerOrigin d o).appsSdkMetadata = d.appsSdkMetadata := by
  cases o with
  | none => rfl
  | some o1 =>
    simp only [enrichDefinitionWithServerOrigin]
    split <;> rfl

theorem enrich_toolOutput (d : UIResourceDefinition) (o : Option String) :
    (enrichDefinitionWithServerOrigin d o).toolOutput = d.toolOutput := by
  cases o with
  | none => rfl
  | some o1 =>
    simp only [enrichDefinitionWithServerOrigin]
    split <;> rfl

theorem enrich_structuredContent (d : UIResourceDefinition) (o : Option String) :
    (enrichDefinitionWithServerOrigin d o).structuredContent = d.structuredContent := by
  cases o with
  | none => rfl
  | some o1 =>
    simp only [enrichDefinitionWithServerOrigin]
    split <;> rfl

theorem enrich_htmlTemplate (d : UIResourceDefinition) (o : Option String) :
    (enrichDefinitionWithServerOrigin d o).htmlTemplate = d.htmlTemplate := by
  cases o with
  | none => rfl
  | some o1 =>
    simp only [enrichDefinitionWithServerOrigin]
    split <;> rfl

theorem enrich_meta (d : UIResourceDefinition) (o : Option String) :
    (enrichDefinitionWithServerOrigin d o).meta = d.meta := by
  cases o with
  | none => rfl
  | some o1 =>
    simp only [enrichDefinitionWithServerOrigin]
    split <;> rfl

theorem enrich_prefersBorder (d : UIResourceDefinition) (o : Option String) :
    (metaBlock (enrichDefinitionWithServerOrigin d o)).prefersBorder =
      (metaBlock d).prefersBorder := by
  cases o with
  | none => rfl
  | some o1 =>
    simp only [enrichDefinitionWithServerOrigin, metaBlock]
    split
    · rfl
    · simp

theorem enrich_domain (d : UIResourceDefinition) (o : Option String) :
    (metaBlock (enrichDefinitionWithServerOrigin d o)).domain = (metaBlock d).domain := by
  cases o with
  | none => rfl
  | some o1 =>
    simp only [enrichDefinitionWithServerOrigin, metaBlock]
    split
    · rfl
    · simp

theorem enrich_permissions (d : UIResourceDefinition) (o : Option String) :
    (metaBlock (enrichDefinitionWithServerOrigin d o)).permissions =
      (metaBlock d).permissions := by
  cases o with
  | none => rfl
  | some o1 =>
    simp only [enrichDefinitionWithServerOrigin, metaBlock]
    split
    · rfl
    · simp

theorem enrich_frameDomains (d : UIResourceDefinition) (o : Option String) :
    (cspLists (enrichDefinitionWithServerOrigin d o)).frameDomains =
      (cspLists d).frameDomains := by
  cases o with
  | none => rfl
  | some o1 =>
    simp only [enrichDefinitionWithServerOrigin, cspLists]
    split
    · rfl
    · simp

theorem enrich_scriptDirectives (d : UIResourceDefinition) (o : Option String) :
    (cspLists (enrichDefinitionWithServerOrigin d o)).scriptDirectives =
      (cspLists d).scriptDirectives := by
  cases o with
  | none => rfl
  | some o1 =>
    simp only [enrichDefinitionWithServerOrigin, cspLists]
    split
    · rfl
    · simp

theorem enrich_styleDirectives (d : UIResourceDefinition) (o : Option String) :
    (cspLists (enrichDefinitionWithServerOrigin d o)).styleDirectives =
      (cspLists d).styleDirectives := by
  cases o with
  | none => rfl
  | some o1 =>
    simp only [enrichDefinitionWithServerOrigin, cspLists]
    split
    · rfl
    · simp

theorem isArrayCopy_eq_spec (x : Option CspField) : isArrayCopy x = specCspConvertField x := by
  cases x with
  | none => rfl
  | some f => cases f <;> rfl

theorem cspConfig_empty_iff (c : CspConfig) :
    c = ({} : CspConfig) ↔
      (c.connectDomains.isSome || c.resourceDomains.isSome || c.frameDomains.isSome ||
        c.baseUriDomains.isSome || c.scriptDirectives.isSome ||
        c.styleDirectives.isSome) = false := by
  obtain ⟨c1, c2, c3, c4, c5, c6⟩ := c
  cases c1 <;> cases c2 <;> cases c3 <;> cases c4 <;> cases c5 <;> cases c6 <;>
    simp [CspConfig.mk.injEq]

/-! ## Execution lemmas for the registration step -/

theorem store_buildId (st : ServerState) (e : UIResourceDefinition) :
    (storeWidgetDefinitionPhase st e).buildId = st.buildId := by
  simp only [storeWidgetDefinitionPhase]
  split
  · split <;> rfl
  · rfl

theorem store_serverOrigin (st : ServerState) (e : UIResourceDefinition) :
    (storeWidgetDefinitionPhase st e).serverOrigin = st.serverOrigin := by
  simp only [storeWidgetDefinitionPhase]
  split
  · split <;> rfl
  · rfl

theorem store_resources (st : ServerState) (e : UIResourceDefinition) :
    (storeWidgetDefinitionPhase st e).resources = st.resources := by
  simp only [storeWidgetDefinitionPhase]
  split
  · split <;> rfl
  · rfl

theorem store_resourceTemplates (st : ServerState) (e : UIResourceDefinition) :
    (storeWidgetDefinitionPhase st e).resourceTemplates = st.resourceTemplates := by
  simp only [storeWidgetDefinitionPhase]
  split
  · split <;> rfl
  · rfl

theorem store_sessions (st : ServerState) (e : UIResourceDefinition) :
    (storeWidgetDefinitionPhase st e).sessions = st.sessions := by
  simp only [storeWidgetDefinitionPhase]
  split
  · split <;> rfl
  · rfl

theorem store_notifications (st : ServerState) (e : UIResourceDefinition) :
    (storeWidgetDefinitionPhase st e).notifications = st.notifications := by
  simp only [storeWidgetDefinitionPhase]
  split
  · split <;> rfl
  · rfl

theorem store_resourceCalls (st : ServerState) (e : UIResourceDefinition) :
    (storeWidgetDefinitionPhase st e).resourceCalls = st.resourceCalls := by
  simp only [storeWidgetDefinitionPhase]
  split
  · split <;> rfl
  · rfl

theorem store_templateCalls (st : ServerState) (e : UIResourceDefinition) :
    (storeWidgetDefinitionPhase st e).templateCalls = st.templateCalls := by
  simp only [storeWidgetDefinitionPhase]
  split
  · split <;> rfl
  · rfl

theorem store_toolRegCalls (st : ServerState) (e : UIResourceDefinition) :
    (storeWidgetDefinitionPhase st e).toolRegCalls = st.toolRegCalls := by
  simp only [storeWidgetDefinitionPhase]
  split
  · split <;> rfl
  · rfl

theorem store_nextId (st : ServerState) (e : UIResourceDefinition) :
    (storeWidgetDefinitionPhase st e).nextId = st.nextId := by
  simp only [storeWidgetDefinitionPhase]
  split
  · split <;> rfl
  · rfl

theorem widgetToolPatch_id (e : UIResourceDefinition) (b : Option String) (r : ToolRecord) :
    (widgetToolPatch e b r).id = r.id := by
  simp only [widgetToolPatch]
  split <;> rfl

theorem store_tools_get (k : String) (st : ServerState) (e : UIResourceDefinition) :
    mapGet k (storeWidgetDefinitionPhase st e).tools =
      (if e.type = WidgetType.mcpApps then
        (mapGet k st.tools).map (widgetToolPatch e st.buildId)
      else mapGet k st.tools) := by
  simp only [storeWidgetDefinitionPhase]
  split
  · split
    · exact mapGet_map_value k _ st.tools
    · rfl
  · rename_i h
    have h2 : ¬e.type = WidgetType.mcpApps := fun hh => h (Or.inr hh)
    rw [if_neg h2]

theorem store_tools_idview (st : ServerState) (e : UIResourceDefinition) :
    (storeWidgetDefinitionPhase st e).tools.map (fun kv => (kv.1, kv.2.id)) =
      st.tools.map (fun kv => (kv.1, kv.2.id)) := by
  simp only [storeWidgetDefinitionPhase]
  split
  · split
    · exact idview_map_value ToolRecord.id _ (widgetToolPatch_id e st.buildId) st.tools
    · rfl
  · rfl

theorem store_widgetDefinitions_apps (st : ServerState) (e : UIResourceDefinition)
    (h : e.type = WidgetType.appsSdk ∨ e.type = WidgetType.mcpApps) :
    (storeWidgetDefinitionPhase st e).widgetDefinitions =
      mapSet e.name (storedWidgetOf e) st.widgetDefinitions := by
  simp only [storeWidgetDefinitionPhase]
  rw [if_pos h]
  split <;> rfl

theorem resolve_apps_uri (e : UIResourceDefinition) (b : Option String) (r : String)
    (h : e.type = WidgetType.appsSdk ∨ e.type = WidgetType.mcpApps) :
    resolveRegistrationUriAndMime e b r =
      Except.ok (generateWidgetUri e.name b r ".html",
        if e.type = WidgetType.appsSdk then "text/html+skybridge"
        else "text/html;profile=mcp-app") := by
  rcases h with h | h <;> simp [resolveRegistrationUriAndMime, h]

theorem resolveExposeAsTool_enrich (d : UIResourceDefinition) (o : Option String) :
    resolveExposeAsTool (enrichDefinitionWithServerOrigin d o) = resolveExposeAsTool d := by
  rw [resolveExposeAsTool, resolveExposeAsTool, enrich_exposeAsTool, enrich_meta]

theorem registration_fresh_unfold (st : ServerState) (d : UIResourceDefinition) (rand : String)
    (hfresh : mapGet (enrichDefinitionWithServerOrigin d st.serverOrigin).name
        st.widgetDefinitions = none) :
    uiResourceRegistration st d rand =
      (match resolveRegistrationUriAndMime (enrichDefinitionWithServerOrigin d st.serverOrigin)
          st.buildId rand with
      | Except.error msg => Except.error msg
      | Except.ok (uri, mime) =>
        Except.ok (toolPhase
          (propagateWidgetResourcesToSessions
            (resourcePhase
              (storeWidgetDefinitionPhase st (enrichDefinitionWithServerOrigin d st.serverOrigin))
              (enrichDefinitionWithServerOrigin d st.serverOrigin) false uri mime
              (resourceMetaOf (enrichDefinitionWithServerOrigin d st.serverOrigin)))
            (enrichDefinitionWithServerOrigin d st.serverOrigin).name)
          (enrichDefinitionWithServerOrigin d st.serverOrigin) false uri
          (displayNameOf d))) := by
  simp only [uiResourceRegistration, hfresh, Option.isSome_none, store_buildId, displayNameOf,
    eq_self_iff_true, if_true]

theorem registration_update_unfold (st : ServerState) (d : UIResourceDefinition) (rand : String)
    (w : StoredWidget)
    (hfound : mapGet (enrichDefinitionWithServerOrigin d st.serverOrigin).name
        st.widgetDefinitions = some w) :
    uiResourceRegistration st d rand =
      (match resolveRegistrationUriAndMime (enrichDefinitionWithServerOrigin d st.serverOrigin)
          st.buildId rand with
      | Except.error msg => Except.error msg
      | Except.ok (uri, mime) =>
        Except.ok (toolPhase
          (resourcePhase
            (storeWidgetDefinitionPhase st (enrichDefinitionWithServerOrigin d st.serverOrigin))
            (enrichDefinitionWithServerOrigin d st.serverOrigin) true uri mime
            (resourceMetaOf (enrichDefinitionWithServerOrigin d st.serverOrigin)))
          (enrichDefinitionWithServerOrigin d st.serverOrigin) true uri
          (displayNameOf d))) := by
  simp only [uiResourceRegistration, hfound, Option.isSome_some, store_buildId, displayNameOf]
  simp

theorem resourcePhase_false_apps (st : ServerState) (e : UIResourceDefinition)
    (uri mime : String) (m : ResourceMeta)
    (h : e.type = WidgetType.appsSdk ∨ e.type = WidgetType.mcpApps) :
    resourcePhase st e false uri mime m =
      { st with
        resources := mapSet (e.name ++ ":" ++ uri) (newResourceRecord st.nextId e uri mime m)
          st.resources
        resourceCalls := st.resourceCalls + 1
        resourceTemplates := mapSet (e.name ++ "-dynamic")
          (newTemplateRecord (st.nextId + 1) st.buildId e mime m) st.resourceTemplates
        templateCalls := st.templateCalls + 1
        nextId := st.nextId + 1 + 1 } := by
  simp [resourcePhase, h]

theorem resourcePhase_false_legacy (st : ServerState) (e : UIResourceDefinition)
    (uri mime : String) (m : ResourceMeta)
    (h : ¬(e.type = WidgetType.appsSdk ∨ e.type = WidgetType.mcpApps)) :
    resourcePhase st e false uri mime m =
      { st with
        resources := mapSet (e.name ++ ":" ++ uri) (newResourceRecord st.nextId e uri mime m)
          st.resources
        resourceCalls := st.resourceCalls + 1
        nextId := st.nextId + 1 } := by
  simp [resourcePhase, h]

theorem resourcePhase_true_eq (st : ServerState) (e : UIResourceDefinition)
    (uri mime : String) (m : ResourceMeta) :
    resourcePhase st e true uri mime m =
      { st with
        resources := mapUpdate (e.name ++ ":" ++ uri) (hmrResourceUpdate e uri m) st.resources
        resourceTemplates := mapUpdate (e.name ++ "-dynamic") (hmrTemplateUpdate e m)
          st.resourceTemplates } := by
  simp only [resourcePhase]
  split
  · rename_i hcond
    simp at hcond
  · rfl

theorem toolPhase_not_exposed (st : ServerState) (e : UIResourceDefinition) (b : Bool)
    (uri dn : String) (h : resolveExposeAsTool e = false) :
    toolPhase st e b uri dn = st := by
  simp [toolPhase, h]

theorem toolPhase_first (st : ServerState) (e : UIResourceDefinition) (uri dn : String)
    (h : resolveExposeAsTool e = true) :
    toolPhase st e false uri dn =
      { st with
        tools := mapSet e.name (newToolRecord st.nextId (buildToolDefinition e uri) e dn)
          st.tools
        toolRegCalls := st.toolRegCalls + 1
        nextId := st.nextId + 1
        notifications := st.notifications ++
          st.sessions.map (fun s => NotifyEvent.toolListChanged s true) } := by
  simp [toolPhase, h]

theorem toolPhase_update_found (st : ServerState) (e : UIResourceDefinition) (uri dn : String)
    (r : ToolRecord) (h : resolveExposeAsTool e = true) (hr : mapGet e.name st.tools = some r) :
    toolPhase st e true uri dn =
      { st with
        tools := mapUpdate e.name (hmrToolUpdate (buildToolDefinition e uri) e dn) st.tools
        notifications := st.notifications ++
          st.sessions.map (fun s => NotifyEvent.toolListChanged s false) } := by
  simp [toolPhase, h, hr]

theorem toolPhase_update_missing (st : ServerState) (e : UIResourceDefinition) (uri dn : String)
    (h : resolveExposeAsTool e = true) (hr : mapGet e.name st.tools = none) :
    toolPhase st e true uri dn = st := by
  simp [toolPhase, h, hr]

theorem hmrResourceUpdate_id (e : UIResourceDefinition) (uri : String) (m : ResourceMeta)
    (r : ResourceRecord) : (hmrResourceUpdate e uri m r).id = r.id := rfl

theorem hmrTemplateUpdate_id (e : UIResourceDefinition) (m : ResourceMeta)
    (r : TemplateRecord) : (hmrTemplateUpdate e m r).id = r.id := rfl

theorem hmrToolUpdate_id (td : ToolDefinition) (e : UIResourceDefinition) (dn : String)
    (r : ToolRecord) : (hmrToolUpdate td e dn r).id = r.id := rfl

theorem mapGet_update_other {α : Type} (k k2 : String) (h : k ≠ k2) (f : α → α)
    (m : List (String × α)) : mapGet k (mapUpdate k2 f m) = mapGet k m := by
  induction m with
  | nil => rfl
  | cons kv t ih =>
    obtain ⟨a, c⟩ := kv
    by_cases ha : a = k2
    · subst ha
      simp only [mapUpdate, List.map_cons, if_pos rfl]
      simp only [mapGet, if_neg h]
      simpa [mapUpdate] using ih
    · simp only [mapUpdate, List.map_cons, if_neg ha]
      by_cases hk : k = a
      · simp [mapGet, hk]
      · simp only [mapGet, if_neg hk]
        simpa [mapUpdate] using ih

theorem toolPhase_common_frame (st : ServerState) (e : UIResourceDefinition) (b : Bool)
    (uri dn : String) :
    (toolPhase st e b uri dn).resourceCalls = st.resourceCalls ∧
      (toolPhase st e b uri dn).templateCalls = st.templateCalls ∧
      (toolPhase st e b uri dn).resources = st.resources ∧
      (toolPhase st e b uri dn).resourceTemplates = st.resourceTemplates ∧
      (toolPhase st e b uri dn).widgetDefinitions = st.widgetDefinitions ∧
      (toolPhase st e b uri dn).sessions = st.sessions ∧
      ∀ ev ∈ st.notifications, ev ∈ (toolPhase st e b uri dn).notifications := by
  rcases Bool.eq_false_or_eq_true (resolveExposeAsTool e) with h | h
  · cases b with
    | false =>
      rw [toolPhase_first st e uri dn h]
      exact ⟨rfl, rfl, rfl, rfl, rfl, rfl, fun ev hv => List.mem_append_left _ hv⟩
    | true =>
      cases hr : mapGet e.name st.tools with
      | none =>
        rw [toolPhase_update_missing st e uri dn h hr]
        exact ⟨rfl, rfl, rfl, rfl, rfl, rfl, fun ev hv => hv⟩
      | some r =>
        rw [toolPhase_update_found st e uri dn r h hr]
        exact ⟨rfl, rfl, rfl, rfl, rfl, rfl, fun ev hv => List.mem_append_left _ hv⟩
  · rw [toolPhase_not_exposed st e b uri dn h]
    exact ⟨rfl, rfl, rfl, rfl, rfl, rfl, fun ev hv => hv⟩

theorem toolPhase_update_frame (st : ServerState) (e : UIResourceDefinition) (uri dn : String) :
    (toolPhase st e true uri dn).toolRegCalls = st.toolRegCalls ∧
      (toolPhase st e true uri dn).tools.map (fun kv => (kv.1, kv.2.id)) =
        st.tools.map (fun kv => (kv.1, kv.2.id)) := by
  rcases Bool.eq_false_or_eq_true (resolveExposeAsTool e) with h | h
  · cases hr : mapGet e.name st.tools with
    | none =>
      rw [toolPhase_update_missing st e uri dn h hr]
      exact ⟨rfl, rfl⟩
    | some r =>
      rw [toolPhase_update_found st e uri dn r h hr]
      exact ⟨rfl, idview_mapUpdate ToolRecord.id e.name _ (hmrToolUpdate_id _ e dn) st.tools⟩
  · rw [toolPhase_not_exposed st e true uri dn h]
    exact ⟨rfl, rfl⟩

theorem stateAfterFirst_serverOrigin (o b : Option String) (sess : List String)
    (d : UIResourceDefinition) (r : String) :
    (stateAfterFirst o b sess d r).serverOrigin = o := by
  simp only [stateAfterFirst]
  split <;> rfl

theorem stateAfterFirst_buildId (o b : Option String) (sess : List String)
    (d : UIResourceDefinition) (r : String) :
    (stateAfterFirst o b sess d r).buildId = b := by
  simp only [stateAfterFirst]
  split <;> rfl

theorem stateAfterFirst_sessions (o b : Option String) (sess : List String)
    (d : UIResourceDefinition) (r : String) :
    (stateAfterFirst o b sess d r).sessions = sess := by
  simp only [stateAfterFirst]
  split <;> rfl

theorem stateAfterFirst_widgetDefinitions (o b : Option String) (sess : List String)
    (d : UIResourceDefinition) (r : String) :
    (stateAfterFirst o b sess d r).widgetDefinitions =
      [((enrichDefinitionWithServerOrigin d o).name,
        storedWidgetOf (enrichDefinitionWithServerOrigin d o))] := by
  simp only [stateAfterFirst]
  split <;> rfl

theorem stateAfterFirst_resources (o b : Option String) (sess : List String)
    (d : UIResourceDefinition) (r : String) :
    (stateAfterFirst o b sess d r).resources =
      [((enrichDefinitionWithServerOrigin d o).name ++ ":" ++
          generateWidgetUri (enrichDefinitionWithServerOrigin d o).name b r ".html",
        newResourceRecord 0 (enrichDefinitionWithServerOrigin d o)
          (generateWidgetUri (enrichDefinitionWithServerOrigin d o).name b r ".html")
          (if (enrichDefinitionWithServerOrigin d o).type = WidgetType.appsSdk then
            "text/html+skybridge" else "text/html;profile=mcp-app")
          (resourceMetaOf (enrichDefinitionWithServerOrigin d o)))] := by
  simp only [stateAfterFirst]
  split <;> rfl

theorem stateAfterFirst_resourceTemplates (o b : Option String) (sess : List String)
    (d : UIResourceDefinition) (r : String) :
    (stateAfterFirst o b sess d r).resourceTemplates =
      [((enrichDefinitionWithServerOrigin d o).name ++ "-dynamic",
        newTemplateRecord 1 b (enrichDefinitionWithServerOrigin d o)
          (if (enrichDefinitionWithServerOrigin d o).type = WidgetType.appsSdk then
            "text/html+skybridge" else "text/html;profile=mcp-app")
          (resourceMetaOf (enrichDefinitionWithServerOrigin d o)))] := by
  simp only [stateAfterFirst]
  split <;> rfl

theorem stateAfterFirst_tools (o b : Option String) (sess : List String)
    (d : UIResourceDefinition) (r : String) :
    (stateAfterFirst o b sess d r).tools =
      (if resolveExposeAsTool (enrichDefinitionWithServerOrigin d o) then
        [((enrichDefinitionWithServerOrigin d o).name,
          newToolRecord 2
            (buildToolDefinition (enrichDefinitionWithServerOrigin d o)
              (generateWidgetUri (enrichDefinitionWithServerOrigin d o).name b r ".html"))
            (enrichDefinitionWithServerOrigin d o) (displayNameOf d))]
      else []) := by
  simp only [stateAfterFirst]
  split <;> rename_i h <;> simp [h]

theorem stateAfterFirst_resourceCalls (o b : Option String) (sess : List String)
    (d : UIResourceDefinition) (r : String) :
    (stateAfterFirst o b sess d r).resourceCalls = 1 := by
  simp only [stateAfterFirst]
  split <;> rfl

theorem stateAfterFirst_templateCalls (o b : Option String) (sess : List String)
    (d : UIResourceDefinition) (r : String) :
    (stateAfterFirst o b sess d r).templateCalls = 1 := by
  simp only [stateAfterFirst]
  split <;> rfl

theorem stateAfterFirst_toolRegCalls (o b : Option String) (sess : List String)
    (d : UIResourceDefinition) (r : String) :
    (stateAfterFirst o b sess d r).toolRegCalls =
      (if resolveExposeAsTool (enrichDefinitionWithServerOrigin d o) then 1 else 0) := by
  simp only [stateAfterFirst]
  split <;> rename_i h <;> simp [h]

theorem first_reg_empty (o b : Option String) (sess : List String)
    (d : UIResourceDefinition) (r : String)
    (ht : (enrichDefinitionWithServerOrigin d o).type = WidgetType.appsSdk ∨
      (enrichDefinitionWithServerOrigin d o).type = WidgetType.mcpApps) :
    uiResourceRegistration (emptyState o b sess) d r =
      Except.ok (stateAfterFirst o b sess d r) := by
  rw [registration_fresh_unfold (emptyState o b sess) d r rfl]
  rcases ht with ht | ht <;>
    rcases Bool.eq_false_or_eq_true
      (resolveExposeAsTool (enrichDefinitionWithServerOrigin d o)) with hb | hb <;>
    simp [resolveRegistrationUriAndMime, storeWidgetDefinitionPhase, resourcePhase, toolPhase,
      propagateWidgetResourcesToSessions, stateAfterFirst, emptyState, mapSet, ht, hb,
      storedWidgetOf, displayNameOf]

/-! ## Claim theorems -/

/-- Claim C3 counterexample: the standalone resolver
`getResourceUriAndMimeType` does not map an appsSdk widget to
`text/html+skybridge` as the claim states; its switch has no appsSdk
case, so the call fails with the InvalidWidgetType error. -/
theorem c3_standalone_appsSdk_counterexample :
    getResourceUriAndMimeType autoWidgetDef none = Except.error "Unknown widget type" ∧
      specMimeByVariant autoWidgetDef.type = some "text/html+skybridge" :=
  ⟨rfl, rfl⟩

/-- Claim C3 (amended): the variant switch inside uiResourceRegistration
maps the five variants to exactly the MIME types the claim lists and
fails with InvalidWidgetType on any other tag; the standalone resolver
getResourceUriAndMimeType does the same for externalUrl, rawHtml,
remoteDom and mcpApps but fails with InvalidWidgetType on appsSdk as
well as on unknown tags. -/
theorem c3_mime_by_variant (d : UIResourceDefinition) (buildId : Option String) (rand : String) :
    mimeOutcome (resolveRegistrationUriAndMime d buildId rand) = specMimeByVariant d.type ∧
      mimeOutcome (getResourceUriAndMimeType d buildId) =
        (if d.type = WidgetType.appsSdk then none else specMimeByVariant d.type) := by
  constructor
  · cases h : d.type <;>
      simp [resolveRegistrationUriAndMime, mimeOutcome, specMimeByVariant, h, Except.toOption]
  · cases h : d.type <;>
      simp [getResourceUriAndMimeType, mimeOutcome, specMimeByVariant, h, Except.toOption]

/-- Claim C4 counterexample: two invocations of generateUniqueWidgetUri
with identical (name, buildId, extension) but different random draws
return different URI strings, so the returned URI is not a function of
those inputs alone. -/
theorem c4_random_suffix_counterexample :
    generateUniqueWidgetUri "w" none ".html" "aaa" ≠
      generateUniqueWidgetUri "w" none ".html" "bbb" := by
  decide

/-- Claim C4 (amended): getResourceUriAndMimeType is deterministic
(two runs on identical inputs agree), while generateUniqueWidgetUri
additionally depends on the fresh random draw: two invocations with
identical (name, buildId, extension) agree exactly when the random
draws agree. -/
theorem c4_uri_resolver_determinism (name : String) (buildId : Option String)
    (extension r1 r2 : String) (d : UIResourceDefinition) (b : Option String) :
    (generateUniqueWidgetUri name buildId extension r1 =
        generateUniqueWidgetUri name buildId extension r2 ↔ r1 = r2) ∧
      getResourceUriAndMimeType d b = getResourceUriAndMimeType d b := by
  refine ⟨?_, rfl⟩
  simp only [generateUniqueWidgetUri]
  exact string_sandwich_inj ("ui://widget/" ++ name ++ getBuildIdPart buildId ++ "-")
    extension r1 r2

/-- Claim C5: the CSP format converter maps exactly the six snake_case
fields to their camelCase counterparts, copies a field (same list,
order preserved) precisely when the source value is an array, silently
omits missing or non-array fields, and returns nothing exactly when no
field was converted — it coincides with the specification-side
converter on every input. -/
theorem c5_csp_format_converter (w : Option SnakeCsp) :
    snakeCaseCspToCamelCase w = specCspConverter w := by
  cases w with
  | none => rfl
  | some w0 =>
    simp only [snakeCaseCspToCamelCase, specCspConverter, isArrayCopy_eq_spec]
    set r : CspConfig :=
      { connectDomains := specCspConvertField w0.connect_domains
        resourceDomains := specCspConvertField w0.resource_domains
        frameDomains := specCspConvertField w0.frame_domains
        baseUriDomains := specCspConvertField w0.base_uri_domains
        scriptDirectives := specCspConvertField w0.script_directives
        styleDirectives := specCspConvertField w0.style_directives } with hrdef
    by_cases hr : r = ({} : CspConfig)
    · have hb := (cspConfig_empty_iff r).mp hr
      rw [if_pos hr, if_neg]
      simp [hb]
    · have hb : (r.connectDomains.isSome || r.resourceDomains.isSome ||
          r.frameDomains.isSome || r.baseUriDomains.isSome ||
          r.scriptDirectives.isSome || r.styleDirectives.isSome) = true := by
        cases hcond : (r.connectDomains.isSome || r.resourceDomains.isSome ||
            r.frameDomains.isSome || r.baseUriDomains.isSome ||
            r.scriptDirectives.isSome || r.styleDirectives.isSome) with
        | false => exact absurd ((cspConfig_empty_iff r).mpr hcond) hr
        | true => rfl
      rw [if_neg hr, if_pos]
      simp [hb]

/-- Claim C6 counterexample: for a definition whose resourceDomains list
already contains the origin twice, the enriched definition still
contains the origin twice — the origin does not occur at most once in
every enriched CSP list. -/
theorem c6_duplicate_origin_counterexample :
    1 < (cspResourceDomains (enrichDefinitionWithServerOrigin dupCspDef (some "o"))).count "o" := by
  decide

/-- Claim C6 (amended): enrichment is idempotent —
enrich(enrich(d,o),o) = enrich(d,o) — and, provided the origin occurred
at most once in each input list, it occurs at most once in each of the
enriched resourceDomains, connectDomains and baseUriDomains lists; the
pre-existing list is always a prefix of the enriched list (order
preserved). -/
theorem c6_enrich_idempotent (d : UIResourceDefinition) (o : String)
    (h1 : (cspResourceDomains d).count o ≤ 1)
    (h2 : (cspConnectDomains d).count o ≤ 1)
    (h3 : (cspBaseUriDomains d).count o ≤ 1) :
    enrichDefinitionWithServerOrigin (enrichDefinitionWithServerOrigin d (some o)) (some o) =
        enrichDefinitionWithServerOrigin d (some o) ∧
      (cspResourceDomains (enrichDefinitionWithServerOrigin d (some o))).count o ≤ 1 ∧
      (cspConnectDomains (enrichDefinitionWithServerOrigin d (some o))).count o ≤ 1 ∧
      (cspBaseUriDomains (enrichDefinitionWithServerOrigin d (some o))).count o ≤ 1 ∧
      cspResourceDomains d <+: cspResourceDomains (enrichDefinitionWithServerOrigin d (some o)) ∧
      cspConnectDomains d <+: cspConnectDomains (enrichDefinitionWithServerOrigin d (some o)) ∧
      cspBaseUriDomains d <+: cspBaseUriDomains (enrichDefinitionWithServerOrigin d (some o)) := by
  by_cases ht : d.type = WidgetType.mcpApps
  · have he : enrichDefinitionWithServerOrigin d (some o) = enrichedFormOf d o := by
      simp [enrichDefinitionWithServerOrigin, ht, enrichedFormOf, enrichedCspOf, metaBlock,
        cspLists]
    refine ⟨?_, ?_, ?_, ?_, ?_, ?_, ?_⟩
    · rw [he]
      simp [enrichDefinitionWithServerOrigin, ht, addOrigin_idem, enrichedFormOf,
        enrichedCspOf, metaBlock, cspLists]
    · rw [he]
      simp only [cspResourceDomains, cspLists, enrichedFormOf, enrichedCspOf,
        Option.getD_some]
      exact count_addOrigin _ o h1
    · rw [he]
      simp only [cspConnectDomains, cspLists, enrichedFormOf, enrichedCspOf,
        Option.getD_some]
      exact count_addOrigin _ o h2
    · rw [he]
      simp only [cspBaseUriDomains, cspLists, enrichedFormOf, enrichedCspOf,
        Option.getD_some]
      exact count_addOrigin _ o h3
    · rw [he]
      simp only [cspResourceDomains, cspLists, enrichedFormOf, enrichedCspOf,
        Option.getD_some]
      exact getD_prefixOf_addOrigin _ o
    · rw [he]
      simp only [cspConnectDomains, cspLists, enrichedFormOf, enrichedCspOf,
        Option.getD_some]
      exact getD_prefixOf_addOrigin _ o
    · rw [he]
      simp only [cspBaseUriDomains, cspLists, enrichedFormOf, enrichedCspOf,
        Option.getD_some]
      exact getD_prefixOf_addOrigin _ o
  · have he : enrichDefinitionWithServerOrigin d (some o) = d := by
      simp [enrichDefinitionWithServerOrigin, ht]
    rw [he, he]
    exact ⟨rfl, h1, h2, h3, ⟨[], List.append_nil _⟩, ⟨[], List.append_nil _⟩,
      ⟨[], List.append_nil _⟩⟩

/-- Claim C6 witness: the amended theorem applied to the kanban widget
(no declared CSP) and the origin from the specification scenario. -/
theorem c6_enrich_idempotent_witness :
    ((cspResourceDomains kanbanDef).count "https://host:3000" ≤ 1 ∧
        (cspConnectDomains kanbanDef).count "https://host:3000" ≤ 1 ∧
        (cspBaseUriDomains kanbanDef).count "https://host:3000" ≤ 1) ∧
      (enrichDefinitionWithServerOrigin
          (enrichDefinitionWithServerOrigin kanbanDef (some "https://host:3000"))
          (some "https://host:3000") =
        enrichDefinitionWithServerOrigin kanbanDef (some "https://host:3000") ∧
      (cspResourceDomains
        (enrichDefinitionWithServerOrigin kanbanDef (some "https://host:3000"))).count
          "https://host:3000" ≤ 1 ∧
      (cspConnectDomains
        (enrichDefinitionWithServerOrigin kanbanDef (some "https://host:3000"))).count
          "https://host:3000" ≤ 1 ∧
      (cspBaseUriDomains
        (enrichDefinitionWithServerOrigin kanbanDef (some "https://host:3000"))).count
          "https://host:3000" ≤ 1 ∧
      cspResourceDomains kanbanDef <+:
        cspResourceDomains (enrichDefinitionWithServerOrigin kanbanDef (some "https://host:3000")) ∧
      cspConnectDomains kanbanDef <+:
        cspConnectDomains (enrichDefinitionWithServerOrigin kanbanDef (some "https://host:3000")) ∧
      cspBaseUriDomains kanbanDef <+:
        cspBaseUriDomains (enrichDefinitionWithServerOrigin kanbanDef (some "https://host:3000"))) :=
  ⟨⟨by decide, by decide, by decide⟩,
    c6_enrich_idempotent kanbanDef "https://host:3000" (by decide) (by decide) (by decide)⟩

/-- Claim C9: for an appsSdk / mcpApps widget without an author-supplied
toolOutput, invoking the tool callback returns a single text content
item carrying the display name, never the widget's presentation body
(no embedded widget resource), and the structured content defaults to
the call parameters when the definition supplies none. -/
theorem c9_tool_call_output (d : UIResourceDefinition) (params : List (String × String))
    (h1 : d.type = WidgetType.appsSdk ∨ d.type = WidgetType.mcpApps)
    (h2 : d.toolOutput = none) :
    toolCallback d (displayNameOf d) params =
        { textItems := [ContentItem.text (displayNameOf d)]
          embeddedWidget := none
          structuredContent := some (match d.structuredContent with
            | some (StructuredSpec.func f) => f params
            | some (StructuredSpec.static v) => v
            | none => StructuredVal.params params) } ∧
      (d.structuredContent = none →
        (toolCallback d (displayNameOf d) params).structuredContent =
          some (StructuredVal.params params)) := by
  constructor
  · rw [toolCallback, if_pos h1, h2]
    cases hs : d.structuredContent with
    | none => simp [generateToolOutput, hs]
    | some s => cases s <;> simp [generateToolOutput, hs]
  · intro hn
    rw [toolCallback, if_pos h1, h2]
    simp [generateToolOutput, hn]

/-- Claim C9 witness: the theorem applied to the auto-widget definition
from the integration tests with concrete parameters. -/
theorem c9_tool_call_output_witness :
    ((autoWidgetDef.type = WidgetType.appsSdk ∨ autoWidgetDef.type = WidgetType.mcpApps) ∧
        autoWidgetDef.toolOutput = none) ∧
      (toolCallback autoWidgetDef (displayNameOf autoWidgetDef) [("message", "test")] =
          { textItems := [ContentItem.text (displayNameOf autoWidgetDef)]
            embeddedWidget := none
            structuredContent := some (match autoWidgetDef.structuredContent with
              | some (StructuredSpec.func f) => f [("message", "test")]
              | some (StructuredSpec.static v) => v
              | none => StructuredVal.params [("message", "test")]) } ∧
        (autoWidgetDef.structuredContent = none →
          (toolCallback autoWidgetDef (displayNameOf autoWidgetDef)
              [("message", "test")]).structuredContent =
            some (StructuredVal.params [("message", "test")]))) :=
  ⟨⟨Or.inl rfl, rfl⟩, c9_tool_call_output autoWidgetDef [("message", "test")] (Or.inl rfl) rfl⟩

/-- Claim C10: the enricher modifies at most the metadata csp
resourceDomains / connectDomains / baseUriDomains entries — every other
field of the definition, every other metadata key and every other csp
field of the returned definition equals the input's (the embedding is
pure, so the input value itself is unchanged). -/
theorem c10_enrich_frame (d : UIResourceDefinition) (o : Option String) :
    (enrichDefinitionWithServerOrigin d o).name = d.name ∧
      (enrichDefinitionWithServerOrigin d o).type = d.type ∧
      (enrichDefinitionWithServerOrigin d o).title = d.title ∧
      (enrichDefinitionWithServerOrigin d o).description = d.description ∧
      (enrichDefinitionWithServerOrigin d o).widget = d.widget ∧
      (enrichDefinitionWithServerOrigin d o).href = d.href ∧
      (enrichDefinitionWithServerOrigin d o).url = d.url ∧
      (enrichDefinitionWithServerOrigin d o).props = d.props ∧
      (enrichDefinitionWithServerOrigin d o).annotations = d.annotations ∧
      (enrichDefinitionWithServerOrigin d o).toolAnnotations = d.toolAnnotations ∧
      (enrichDefinitionWithServerOrigin d o).exposeAsTool = d.exposeAsTool ∧
      (enrichDefinitionWithServerOrigin d o).appsSdkMetadata = d.appsSdkMetadata ∧
      (enrichDefinitionWithServerOrigin d o).toolOutput = d.toolOutput ∧
      (enrichDefinitionWithServerOrigin d o).structuredContent = d.structuredContent ∧
      (enrichDefinitionWithServerOrigin d o).htmlTemplate = d.htmlTemplate ∧
      (enrichDefinitionWithServerOrigin d o).meta = d.meta ∧
      (metaBlock (enrichDefinitionWithServerOrigin d o)).prefersBorder =
        (metaBlock d).prefersBorder ∧
      (metaBlock (enrichDefinitionWithServerOrigin d o)).domain = (metaBlock d).domain ∧
      (metaBlock (enrichDefinitionWithServerOrigin d o)).permissions =
        (metaBlock d).permissions ∧
      (cspLists (enrichDefinitionWithServerOrigin d o)).frameDomains =
        (cspLists d).frameDomains ∧
      (cspLists (enrichDefinitionWithServerOrigin d o)).scriptDirectives =
        (cspLists d).scriptDirectives ∧
      (cspLists (enrichDefinitionWithServerOrigin d o)).styleDirectives =
        (cspLists d).styleDirectives :=
  ⟨enrich_name d o, enrich_type d o, enrich_title d o, enrich_description d o,
    enrich_widget d o, enrich_href d o, enrich_url d o, enrich_props d o,
    enrich_annotationList d o, enrich_toolAnnotationList d o, enrich_exposeAsTool d o,
    enrich_appsSdkMetadata d o, enrich_toolOutput d o, enrich_structuredContent d o,
    enrich_htmlTemplate d o, enrich_meta d o, enrich_prefersBorder d o, enrich_domain d o,
    enrich_permissions d o, enrich_frameDomains d o, enrich_scriptDirectives d o,
    enrich_styleDirectives d o⟩

/-- Claim C7: the effective exposeAsTool value is the definition's own
field when set (an explicit false wins), otherwise the
`_meta["mcp-use/widget"].exposeAsTool` fallback when set, otherwise
true; on a first-time registration the tool record is created exactly
when the resolved value is true, and a resolved false skips the
server's tool registration entirely. -/
theorem c7_exposeAsTool_resolution (st st' : ServerState) (d : UIResourceDefinition)
    (rand : String)
    (hfresh : mapGet d.name st.widgetDefinitions = none)
    (hfreshTool : mapGet d.name st.tools = none)
    (hok : uiResourceRegistration st d rand = Except.ok st') :
    resolveExposeAsTool d = specExposeAsTool d.exposeAsTool (fallbackExposeAsTool d) ∧
      ((mapGet d.name st'.tools).isSome ↔ resolveExposeAsTool d = true) ∧
      (resolveExposeAsTool d = false →
        mapGet d.name st'.tools = none ∧ st'.toolRegCalls = st.toolRegCalls) := by
  have hres0 : resolveExposeAsTool d =
      specExposeAsTool d.exposeAsTool (fallbackExposeAsTool d) := by
    cases hd : d.exposeAsTool with
    | some v => simp [resolveExposeAsTool, specExposeAsTool, fallbackExposeAsTool, hd]
    | none =>
      cases hf : (d.meta.bind DefMeta.widget).bind McpUseWidgetMeta.exposeAsTool with
      | some v => simp [resolveExposeAsTool, specExposeAsTool, fallbackExposeAsTool, hd, hf]
      | none => simp [resolveExposeAsTool, specExposeAsTool, fallbackExposeAsTool, hd, hf]
  have hen : (enrichDefinitionWithServerOrigin d st.serverOrigin).name = d.name :=
    enrich_name d st.serverOrigin
  have hexp : resolveExposeAsTool (enrichDefinitionWithServerOrigin d st.serverOrigin) =
      resolveExposeAsTool d := resolveExposeAsTool_enrich d st.serverOrigin
  have hfresh2 : mapGet (enrichDefinitionWithServerOrigin d st.serverOrigin).name
      st.widgetDefinitions = none := by
    rw [hen]
    exact hfresh
  rw [registration_fresh_unfold st d rand hfresh2] at hok
  cases hres : resolveRegistrationUriAndMime (enrichDefinitionWithServerOrigin d st.serverOrigin)
      st.buildId rand with
  | error msg =>
    rw [hres] at hok
    cases hok
  | ok p =>
    obtain ⟨uri, mime⟩ := p
    rw [hres] at hok
    have hst' := (Except.ok.inj hok).symm
    have hXtools :
        (propagateWidgetResourcesToSessions
          (resourcePhase
            (storeWidgetDefinitionPhase st (enrichDefinitionWithServerOrigin d st.serverOrigin))
            (enrichDefinitionWithServerOrigin d st.serverOrigin) false uri mime
            (resourceMetaOf (enrichDefinitionWithServerOrigin d st.serverOrigin)))
          (enrichDefinitionWithServerOrigin d st.serverOrigin).name).tools =
        (storeWidgetDefinitionPhase st
          (enrichDefinitionWithServerOrigin d st.serverOrigin)).tools := by
      by_cases hv : (enrichDefinitionWithServerOrigin d st.serverOrigin).type =
          WidgetType.appsSdk ∨
          (enrichDefinitionWithServerOrigin d st.serverOrigin).type = WidgetType.mcpApps
      · rw [show (propagateWidgetResourcesToSessions
            (resourcePhase _ _ false uri mime _) _).tools =
            (resourcePhase
              (storeWidgetDefinitionPhase st
                (enrichDefinitionWithServerOrigin d st.serverOrigin))
              (enrichDefinitionWithServerOrigin d st.serverOrigin) false uri mime
              (resourceMetaOf (enrichDefinitionWithServerOrigin d st.serverOrigin))).tools
            from rfl,
          resourcePhase_false_apps _ _ _ _ _ hv]
      · rw [show (propagateWidgetResourcesToSessions
            (resourcePhase _ _ false uri mime _) _).tools =
            (resourcePhase
              (storeWidgetDefinitionPhase st
                (enrichDefinitionWithServerOrigin d st.serverOrigin))
              (enrichDefinitionWithServerOrigin d st.serverOrigin) false uri mime
              (resourceMetaOf (enrichDefinitionWithServerOrigin d st.serverOrigin))).tools
            from rfl,
          resourcePhase_false_legacy _ _ _ _ _ hv]
    have hstoreTools : mapGet d.name
        (storeWidgetDefinitionPhase st
          (enrichDefinitionWithServerOrigin d st.serverOrigin)).tools = none := by
      rw [store_tools_get]
      split
      · rw [hfreshTool]
        rfl
      · exact hfreshTool
    refine ⟨hres0, ?_, ?_⟩
    · rcases Bool.eq_false_or_eq_true (resolveExposeAsTool d) with hb | hb
      · rw [hst', toolPhase_first _ _ _ _ (hexp.trans hb)]
        simp only [hb]
        rw [show (mapGet d.name _) = mapGet d.name
            (mapSet (enrichDefinitionWithServerOrigin d st.serverOrigin).name _ _) from rfl]
        rw [hen, mapGet_set_self]
        simp
      · rw [hst', toolPhase_not_exposed _ _ _ _ _ (hexp.trans hb)]
        rw [hXtools, hstoreTools]
        simp [hb]
    · intro hb
      rw [hst', toolPhase_not_exposed _ _ _ _ _ (hexp.trans hb)]
      constructor
      · rw [hXtools, hstoreTools]
      · have hrc :
            (propagateWidgetResourcesToSessions
              (resourcePhase
                (storeWidgetDefinitionPhase st
                  (enrichDefinitionWithServerOrigin d st.serverOrigin))
                (enrichDefinitionWithServerOrigin d st.serverOrigin) false uri mime
                (resourceMetaOf (enrichDefinitionWithServerOrigin d st.serverOrigin)))
              (enrichDefinitionWithServerOrigin d st.serverOrigin).name).toolRegCalls =
            (storeWidgetDefinitionPhase st
              (enrichDefinitionWithServerOrigin d st.serverOrigin)).toolRegCalls := by
          by_cases hv : (enrichDefinitionWithServerOrigin d st.serverOrigin).type =
              WidgetType.appsSdk ∨
              (enrichDefinitionWithServerOrigin d st.serverOrigin).type = WidgetType.mcpApps
          · rw [show (propagateWidgetResourcesToSessions
                (resourcePhase _ _ false uri mime _) _).toolRegCalls =
                (resourcePhase
                  (storeWidgetDefinitionPhase st
                    (enrichDefinitionWithServerOrigin d st.serverOrigin))
                  (enrichDefinitionWithServerOrigin d st.serverOrigin) false uri mime
                  (resourceMetaOf (enrichDefinitionWithServerOrigin d
                    st.serverOrigin))).toolRegCalls
                from rfl,
              resourcePhase_false_apps _ _ _ _ _ hv]
          · rw [show (propagateWidgetResourcesToSessions
                (resourcePhase _ _ false uri mime _) _).toolRegCalls =
                (resourcePhase
                  (storeWidgetDefinitionPhase st
                    (enrichDefinitionWithServerOrigin d st.serverOrigin))
                  (enrichDefinitionWithServerOrigin d st.serverOrigin) false uri mime
                  (resourceMetaOf (enrichDefinitionWithServerOrigin d
                    st.serverOrigin))).toolRegCalls
                from rfl,
              resourcePhase_false_legacy _ _ _ _ _ hv]
        rw [hrc, store_toolRegCalls]

/-- Claim C7 witness: the theorem applied to a first-time registration
of the auto-widget definition on an empty server. -/
theorem c7_exposeAsTool_resolution_witness :
    (mapGet autoWidgetDef.name (emptyState none none ["s1"]).widgetDefinitions = none ∧
        mapGet autoWidgetDef.name (emptyState none none ["s1"]).tools = none ∧
        uiResourceRegistration (emptyState none none ["s1"]) autoWidgetDef "r1" =
          Except.ok (stateAfterFirst none none ["s1"] autoWidgetDef "r1")) ∧
      (resolveExposeAsTool autoWidgetDef =
          specExposeAsTool autoWidgetDef.exposeAsTool (fallbackExposeAsTool autoWidgetDef) ∧
        ((mapGet autoWidgetDef.name
            (stateAfterFirst none none ["s1"] autoWidgetDef "r1").tools).isSome ↔
          resolveExposeAsTool autoWidgetDef = true) ∧
        (resolveExposeAsTool autoWidgetDef = false →
          mapGet autoWidgetDef.name
              (stateAfterFirst none none ["s1"] autoWidgetDef "r1").tools = none ∧
            (stateAfterFirst none none ["s1"] autoWidgetDef "r1").toolRegCalls =
              (emptyState none none ["s1"]).toolRegCalls)) :=
  ⟨⟨rfl, rfl, first_reg_empty none none ["s1"] autoWidgetDef "r1" (Or.inl rfl)⟩,
    c7_exposeAsTool_resolution (emptyState none none ["s1"])
      (stateAfterFirst none none ["s1"] autoWidgetDef "r1") autoWidgetDef "r1" rfl rfl
      (first_reg_empty none none ["s1"] autoWidgetDef "r1" (Or.inl rfl))⟩

/-- Claim C8: on a first-time registration the resource entry is created
(one server.resource invocation), the resource-template entry is created
exactly for appsSdk / mcpApps variants, and the newly created resources
are propagated to every live session's resource-list-changed notifier —
for every definition, hence regardless of how exposeAsTool resolves;
neither fact is conditioned on tool exposure. -/
theorem c8_resource_creation_and_propagation (st st' : ServerState)
    (d : UIResourceDefinition) (rand : String)
    (hfresh : mapGet d.name st.widgetDefinitions = none)
    (hok : uiResourceRegistration st d rand = Except.ok st') :
    st'.resourceCalls = st.resourceCalls + 1 ∧
      st'.templateCalls = st.templateCalls +
        (if d.type = WidgetType.appsSdk ∨ d.type = WidgetType.mcpApps then 1 else 0) ∧
      ∀ s ∈ st.sessions, NotifyEvent.resourceListChanged s d.name ∈ st'.notifications := by
  have hen : (enrichDefinitionWithServerOrigin d st.serverOrigin).name = d.name :=
    enrich_name d st.serverOrigin
  have hfresh2 : mapGet (enrichDefinitionWithServerOrigin d st.serverOrigin).name
      st.widgetDefinitions = none := by
    rw [hen]
    exact hfresh
  rw [registration_fresh_unfold st d rand hfresh2] at hok
  cases hres : resolveRegistrationUriAndMime (enrichDefinitionWithServerOrigin d st.serverOrigin)
      st.buildId rand with
  | error msg =>
    rw [hres] at hok
    cases hok
  | ok p =>
    obtain ⟨uri, mime⟩ := p
    rw [hres] at hok
    have hst' := (Except.ok.inj hok).symm
    obtain ⟨f1, f2, f3, f4, f5, f6, f7⟩ :=
      toolPhase_common_frame
        (propagateWidgetResourcesToSessions
          (resourcePhase
            (storeWidgetDefinitionPhase st (enrichDefinitionWithServerOrigin d st.serverOrigin))
            (enrichDefinitionWithServerOrigin d st.serverOrigin) false uri mime
            (resourceMetaOf (enrichDefinitionWithServerOrigin d st.serverOrigin)))
          (enrichDefinitionWithServerOrigin d st.serverOrigin).name)
        (enrichDefinitionWithServerOrigin d st.serverOrigin) false uri (displayNameOf d)
    refine ⟨?_, ?_, ?_⟩
    · rw [hst', f1]
      by_cases hv : (enrichDefinitionWithServerOrigin d st.serverOrigin).type =
          WidgetType.appsSdk ∨
          (enrichDefinitionWithServerOrigin d st.serverOrigin).type = WidgetType.mcpApps
      · simp [propagateWidgetResourcesToSessions, resourcePhase_false_apps _ _ _ _ _ hv,
          store_resourceCalls]
      · simp [propagateWidgetResourcesToSessions, resourcePhase_false_legacy _ _ _ _ _ hv,
          store_resourceCalls]
    · rw [hst', f2]
      by_cases hv : (enrichDefinitionWithServerOrigin d st.serverOrigin).type =
          WidgetType.appsSdk ∨
          (enrichDefinitionWithServerOrigin d st.serverOrigin).type = WidgetType.mcpApps
      · have hvd : d.type = WidgetType.appsSdk ∨ d.type = WidgetType.mcpApps := by
          rw [← enrich_type d st.serverOrigin]
          exact hv
        rw [if_pos hvd]
        simp [propagateWidgetResourcesToSessions, resourcePhase_false_apps _ _ _ _ _ hv,
          store_templateCalls]
      · have hvd : ¬(d.type = WidgetType.appsSdk ∨ d.type = WidgetType.mcpApps) := by
          rw [← enrich_type d st.serverOrigin]
          exact hv
        rw [if_neg hvd]
        simp [propagateWidgetResourcesToSessions, resourcePhase_false_legacy _ _ _ _ _ hv,
          store_templateCalls]
    · intro s hs
      rw [hst']
      apply f7
      have hsess :
          (resourcePhase
            (storeWidgetDefinitionPhase st (enrichDefinitionWithServerOrigin d st.serverOrigin))
            (enrichDefinitionWithServerOrigin d st.serverOrigin) false uri mime
            (resourceMetaOf (enrichDefinitionWithServerOrigin d st.serverOrigin))).sessions =
          st.sessions := by
        by_cases hv : (enrichDefinitionWithServerOrigin d st.serverOrigin).type =
            WidgetType.appsSdk ∨
            (enrichDefinitionWithServerOrigin d st.serverOrigin).type = WidgetType.mcpApps
        · simp [resourcePhase_false_apps _ _ _ _ _ hv, store_sessions]
        · simp [resourcePhase_false_legacy _ _ _ _ _ hv, store_sessions]
      show NotifyEvent.resourceListChanged s d.name ∈ _ ++ _
      apply List.mem_append_right
      rw [hsess, ← hen]
      exact List.mem_map_of_mem _ hs

/-- Claim C8 witness: the theorem applied to a first-time registration
of the kanban widget (an mcpApps definition) on an empty server with
one live session. -/
theorem c8_resource_creation_and_propagation_witness :
    (mapGet kanbanDef.name (emptyState none none ["s1"]).widgetDefinitions = none ∧
        uiResourceRegistration (emptyState none none ["s1"]) kanbanDef "r1" =
          Except.ok (stateAfterFirst none none ["s1"] kanbanDef "r1")) ∧
      ((stateAfterFirst none none ["s1"] kanbanDef "r1").resourceCalls =
          (emptyState none none ["s1"]).resourceCalls + 1 ∧
        (stateAfterFirst none none ["s1"] kanbanDef "r1").templateCalls =
          (emptyState none none ["s1"]).templateCalls +
            (if kanbanDef.type = WidgetType.appsSdk ∨ kanbanDef.type = WidgetType.mcpApps
              then 1 else 0) ∧
        ∀ s ∈ (emptyState none none ["s1"]).sessions,
          NotifyEvent.resourceListChanged s kanbanDef.name ∈
            (stateAfterFirst none none ["s1"] kanbanDef "r1").notifications) :=
  ⟨⟨rfl, first_reg_empty none none ["s1"] kanbanDef "r1" (Or.inr rfl)⟩,
    c8_resource_creation_and_propagation (emptyState none none ["s1"])
      (stateAfterFirst none none ["s1"] kanbanDef "r1") kanbanDef "r1" rfl
      (first_reg_empty none none ["s1"] kanbanDef "r1" (Or.inr rfl))⟩

/-- Claim C2 (amended): for appsSdk / mcpApps definitions, registering
the same name twice invokes no server registration function on the
second call (the resource / template / tool invocation counters are
unchanged), every record keeps its key and allocation identity, and
after the first registration there is exactly one resource record, one
resource-template record and at most one tool record for the name.
For legacy variants the property fails (see the counterexample): the
hot-update detection never triggers for them. -/
theorem c2_hmr_in_place (o b : Option String) (sess : List String)
    (d1 d2 : UIResourceDefinition) (r1 r2 : String)
    (hname : d2.name = d1.name)
    (ht1 : d1.type = WidgetType.appsSdk ∨ d1.type = WidgetType.mcpApps)
    (ht2 : d2.type = WidgetType.appsSdk ∨ d2.type = WidgetType.mcpApps) :
    regOk (uiResourceRegistration (emptyState o b sess) d1 r1) = true ∧
      regOk (uiResourceRegistration (regStep (emptyState o b sess) d1 r1) d2 r2) = true ∧
      (regStep (regStep (emptyState o b sess) d1 r1) d2 r2).resourceCalls =
        (regStep (emptyState o b sess) d1 r1).resourceCalls ∧
      (regStep (regStep (emptyState o b sess) d1 r1) d2 r2).templateCalls =
        (regStep (emptyState o b sess) d1 r1).templateCalls ∧
      (regStep (regStep (emptyState o b sess) d1 r1) d2 r2).toolRegCalls =
        (regStep (emptyState o b sess) d1 r1).toolRegCalls ∧
      resourceIds (regStep (regStep (emptyState o b sess) d1 r1) d2 r2) =
        resourceIds (regStep (emptyState o b sess) d1 r1) ∧
      templateIds (regStep (regStep (emptyState o b sess) d1 r1) d2 r2) =
        templateIds (regStep (emptyState o b sess) d1 r1) ∧
      toolIds (regStep (regStep (emptyState o b sess) d1 r1) d2 r2) =
        toolIds (regStep (emptyState o b sess) d1 r1) ∧
      (regStep (emptyState o b sess) d1 r1).resources.length = 1 ∧
      (regStep (emptyState o b sess) d1 r1).resourceTemplates.length = 1 ∧
      (regStep (emptyState o b sess) d1 r1).tools.length =
        (if resolveExposeAsTool d1 then 1 else 0) := by
  have ht1' : (enrichDefinitionWithServerOrigin d1 o).type = WidgetType.appsSdk ∨
      (enrichDefinitionWithServerOrigin d1 o).type = WidgetType.mcpApps := by
    rw [enrich_type]
    exact ht1
  have ht2' : (enrichDefinitionWithServerOrigin d2 o).type = WidgetType.appsSdk ∨
      (enrichDefinitionWithServerOrigin d2 o).type = WidgetType.mcpApps := by
    rw [enrich_type]
    exact ht2
  have hst1 : regStep (emptyState o b sess) d1 r1 = stateAfterFirst o b sess d1 r1 := by
    simp [regStep, first_reg_empty o b sess d1 r1 ht1']
  have hfound : mapGet
      (enrichDefinitionWithServerOrigin d2
        (stateAfterFirst o b sess d1 r1).serverOrigin).name
      (stateAfterFirst o b sess d1 r1).widgetDefinitions =
      some (storedWidgetOf (enrichDefinitionWithServerOrigin d1 o)) := by
    rw [stateAfterFirst_serverOrigin, stateAfterFirst_widgetDefinitions, enrich_name d2 o,
      hname, enrich_name d1 o]
    simp [mapGet]
  have h2eq := registration_update_unfold (stateAfterFirst o b sess d1 r1) d2 r2
    (storedWidgetOf (enrichDefinitionWithServerOrigin d1 o)) hfound
  rw [stateAfterFirst_serverOrigin, stateAfterFirst_buildId,
    resolve_apps_uri (enrichDefinitionWithServerOrigin d2 o) b r2 ht2'] at h2eq
  have hst2 : regStep (stateAfterFirst o b sess d1 r1) d2 r2 =
      toolPhase
        (resourcePhase
          (storeWidgetDefinitionPhase (stateAfterFirst o b sess d1 r1)
            (enrichDefinitionWithServerOrigin d2 o))
          (enrichDefinitionWithServerOrigin d2 o) true
          (generateWidgetUri (enrichDefinitionWithServerOrigin d2 o).name b r2 ".html")
          (if (enrichDefinitionWithServerOrigin d2 o).type = WidgetType.appsSdk then
            "text/html+skybridge" else "text/html;profile=mcp-app")
          (resourceMetaOf (enrichDefinitionWithServerOrigin d2 o)))
        (enrichDefinitionWithServerOrigin d2 o) true
        (generateWidgetUri (enrichDefinitionWithServerOrigin d2 o).name b r2 ".html")
        (displayNameOf d2) := by
    simp [regStep, h2eq]
  obtain ⟨f1, f2, f3, f4, -, -, -⟩ :=
    toolPhase_common_frame
      (resourcePhase
        (storeWidgetDefinitionPhase (stateAfterFirst o b sess d1 r1)
          (enrichDefinitionWithServerOrigin d2 o))
        (enrichDefinitionWithServerOrigin d2 o) true
        (generateWidgetUri (enrichDefinitionWithServerOrigin d2 o).name b r2 ".html")
        (if (enrichDefinitionWithServerOrigin d2 o).type = WidgetType.appsSdk then
          "text/html+skybridge" else "text/html;profile=mcp-app")
        (resourceMetaOf (enrichDefinitionWithServerOrigin d2 o)))
      (enrichDefinitionWithServerOrigin d2 o) true
      (generateWidgetUri (enrichDefinitionWithServerOrigin d2 o).name b r2 ".html")
      (displayNameOf d2)
  obtain ⟨g1, g2⟩ :=
    toolPhase_update_frame
      (resourcePhase
        (storeWidgetDefinitionPhase (stateAfterFirst o b sess d1 r1)
          (enrichDefinitionWithServerOrigin d2 o))
        (enrichDefinitionWithServerOrigin d2 o) true
        (generateWidgetUri (enrichDefinitionWithServerOrigin d2 o).name b r2 ".html")
        (if (enrichDefinitionWithServerOrigin d2 o).type = WidgetType.appsSdk then
          "text/html+skybridge" else "text/html;profile=mcp-app")
        (resourceMetaOf (enrichDefinitionWithServerOrigin d2 o)))
      (enrichDefinitionWithServerOrigin d2 o)
      (generateWidgetUri (enrichDefinitionWithServerOrigin d2 o).name b r2 ".html")
      (displayNameOf d2)
  refine ⟨?_, ?_, ?_, ?_, ?_, ?_, ?_, ?_, ?_, ?_, ?_⟩
  · simp [regOk, first_reg_empty o b sess d1 r1 ht1']
  · rw [hst1]
    simp [regOk, h2eq]
  · rw [hst1, hst2, f1, resourcePhase_true_eq, store_resourceCalls]
  · rw [hst1, hst2, f2, resourcePhase_true_eq, store_templateCalls]
  · rw [hst1, hst2, g1, resourcePhase_true_eq, store_toolRegCalls]
  · rw [hst1, hst2]
    show (toolPhase _ _ true _ _).resources.map _ = _
    rw [f3, resourcePhase_true_eq]
    show (mapUpdate _ _ _).map _ = _
    rw [idview_mapUpdate ResourceRecord.id _ _
      (hmrResourceUpdate_id (enrichDefinitionWithServerOrigin d2 o) _
        (resourceMetaOf (enrichDefinitionWithServerOrigin d2 o)))]
    show (storeWidgetDefinitionPhase _ _).resources.map _ = _
    rw [store_resources]
    rfl
  · rw [hst1, hst2]
    show (toolPhase _ _ true _ _).resourceTemplates.map _ = _
    rw [f4, resourcePhase_true_eq]
    show (mapUpdate _ _ _).map _ = _
    rw [idview_mapUpdate TemplateRecord.id _ _
      (hmrTemplateUpdate_id (enrichDefinitionWithServerOrigin d2 o)
        (resourceMetaOf (enrichDefinitionWithServerOrigin d2 o)))]
    show (storeWidgetDefinitionPhase _ _).resourceTemplates.map _ = _
    rw [store_resourceTemplates]
    rfl
  · rw [hst1, hst2]
    show (toolPhase _ _ true _ _).tools.map _ = _
    rw [g2]
    show (resourcePhase _ _ true _ _ _).tools.map _ = _
    rw [resourcePhase_true_eq]
    exact store_tools_idview (stateAfterFirst o b sess d1 r1)
      (enrichDefinitionWithServerOrigin d2 o)
  · rw [hst1, stateAfterFirst_resources]
    rfl
  · rw [hst1, stateAfterFirst_resourceTemplates]
    rfl
  · rw [hst1, stateAfterFirst_tools, resolveExposeAsTool_enrich d1 o]
    cases hb : resolveExposeAsTool d1 <;> simp [hb]

/-- Claim C2 witness: the amended theorem applied to the hot update of
the mcpApps widget `w` from title `A` to title `B`. -/
theorem c2_hmr_in_place_witness :
    (wDefB.name = wDefA.name ∧
        (wDefA.type = WidgetType.appsSdk ∨ wDefA.type = WidgetType.mcpApps) ∧
        (wDefB.type = WidgetType.appsSdk ∨ wDefB.type = WidgetType.mcpApps)) ∧
      (regOk (uiResourceRegistration (emptyState none none ["s1"]) wDefA "r1") = true ∧
        regOk (uiResourceRegistration
          (regStep (emptyState none none ["s1"]) wDefA "r1") wDefB "r2") = true ∧
        (regStep (regStep (emptyState none none ["s1"]) wDefA "r1") wDefB "r2").resourceCalls =
          (regStep (emptyState none none ["s1"]) wDefA "r1").resourceCalls ∧
        (regStep (regStep (emptyState none none ["s1"]) wDefA "r1") wDefB "r2").templateCalls =
          (regStep (emptyState none none ["s1"]) wDefA "r1").templateCalls ∧
        (regStep (regStep (emptyState none none ["s1"]) wDefA "r1") wDefB "r2").toolRegCalls =
          (regStep (emptyState none none ["s1"]) wDefA "r1").toolRegCalls ∧
        resourceIds (regStep (regStep (emptyState none none ["s1"]) wDefA "r1") wDefB "r2") =
          resourceIds (regStep (emptyState none none ["s1"]) wDefA "r1") ∧
        templateIds (regStep (regStep (emptyState none none ["s1"]) wDefA "r1") wDefB "r2") =
          templateIds (regStep (emptyState none none ["s1"]) wDefA "r1") ∧
        toolIds (regStep (regStep (emptyState none none ["s1"]) wDefA "r1") wDefB "r2") =
          toolIds (regStep (emptyState none none ["s1"]) wDefA "r1") ∧
        (regStep (emptyState none none ["s1"]) wDefA "r1").resources.length = 1 ∧
        (regStep (emptyState none none ["s1"]) wDefA "r1").resourceTemplates.length = 1 ∧
        (regStep (emptyState none none ["s1"]) wDefA "r1").tools.length =
          (if resolveExposeAsTool wDefA then 1 else 0)) :=
  ⟨⟨rfl, Or.inr rfl, Or.inr rfl⟩,
    c2_hmr_in_place none none ["s1"] wDefA wDefB "r1" "r2" rfl (Or.inr rfl) (Or.inr rfl)⟩

/-- Claim C1 (amended): after a hot update of a tool-exposed appsSdk /
mcpApps widget, tool calls and resource-template reads are computed
from the new definition d2 — but via in-place replacement of the stored
handlers with closures over d2, not via invocation-time re-lookup: the
shared store holds no full definition, so `getLatestDefinition` falls
back to whatever definition each handler closed over.  The plain
resource record keeps its registration-time handler (its
`name:resourceUri` key is regenerated with a fresh random suffix and
misses), so plain resource reads are still computed from d1. -/
theorem c1_handler_rebinding (o b : Option String) (sess : List String)
    (d1 d2 : UIResourceDefinition) (r1 r2 : String)
    (hname : d2.name = d1.name)
    (ht1 : d1.type = WidgetType.appsSdk ∨ d1.type = WidgetType.mcpApps)
    (ht2 : d2.type = WidgetType.appsSdk ∨ d2.type = WidgetType.mcpApps)
    (hexp1 : resolveExposeAsTool d1 = true)
    (hexp2 : resolveExposeAsTool d2 = true)
    (hr : r1 ≠ r2) :
    (mapGet d1.name
        (regStep (regStep (emptyState o b sess) d1 r1) d2 r2).tools).map
      (fun rec => rec.handler) =
      some { captured := enrichDefinitionWithServerOrigin d2 o
             displayName := displayNameOf d2 } ∧
      (∀ p, (mapGet d1.name
          (regStep (regStep (emptyState o b sess) d1 r1) d2 r2).tools).map
        (fun rec => invokeToolHandler rec.handler p) =
        some (toolCallback (enrichDefinitionWithServerOrigin d2 o) (displayNameOf d2) p)) ∧
      (mapGet (d1.name ++ "-dynamic")
          (regStep (regStep (emptyState o b sess) d1 r1) d2 r2).resourceTemplates).map
        (fun rec => rec.handler.captured) =
        some (enrichDefinitionWithServerOrigin d2 o) ∧
      (∀ u, (mapGet (d1.name ++ "-dynamic")
          (regStep (regStep (emptyState o b sess) d1 r1) d2 r2).resourceTemplates).map
        (fun rec => (invokeTemplateRead
            (regStep (regStep (emptyState o b sess) d1 r1) d2 r2) rec.handler u).contents.map
          (fun c => c.sourceDef)) =
        some [enrichDefinitionWithServerOrigin d2 o]) ∧
      (mapGet (d1.name ++ ":" ++ generateWidgetUri d1.name b r1 ".html")
          (regStep (regStep (emptyState o b sess) d1 r1) d2 r2).resources).map
        (fun rec => rec.handler.captured) =
        some (enrichDefinitionWithServerOrigin d1 o) ∧
      (mapGet (d1.name ++ ":" ++ generateWidgetUri d1.name b r1 ".html")
          (regStep (regStep (emptyState o b sess) d1 r1) d2 r2).resources).map
        (fun rec => (invokeResourceRead
            (regStep (regStep (emptyState o b sess) d1 r1) d2 r2) rec.handler).contents.map
          (fun c => c.sourceDef)) =
        some [enrichDefinitionWithServerOrigin d1 o] := by
  have hE1n : (enrichDefinitionWithServerOrigin d1 o).name = d1.name := enrich_name d1 o
  have hE2n : (enrichDefinitionWithServerOrigin d2 o).name = d1.name := by
    rw [enrich_name]
    exact hname
  have ht1' : (enrichDefinitionWithServerOrigin d1 o).type = WidgetType.appsSdk ∨
      (enrichDefinitionWithServerOrigin d1 o).type = WidgetType.mcpApps := by
    rw [enrich_type]
    exact ht1
  have ht2' : (enrichDefinitionWithServerOrigin d2 o).type = WidgetType.appsSdk ∨
      (enrichDefinitionWithServerOrigin d2 o).type = WidgetType.mcpApps := by
    rw [enrich_type]
    exact ht2
  have hexp1' : resolveExposeAsTool (enrichDefinitionWithServerOrigin d1 o) = true := by
    rw [resolveExposeAsTool_enrich]
    exact hexp1
  have hexp2' : resolveExposeAsTool (enrichDefinitionWithServerOrigin d2 o) = true := by
    rw [resolveExposeAsTool_enrich]
    exact hexp2
  have hst1 : regStep (emptyState o b sess) d1 r1 = stateAfterFirst o b sess d1 r1 := by
    simp [regStep, first_reg_empty o b sess d1 r1 ht1']
  have hfound : mapGet
      (enrichDefinitionWithServerOrigin d2
        (stateAfterFirst o b sess d1 r1).serverOrigin).name
      (stateAfterFirst o b sess d1 r1).widgetDefinitions =
      some (storedWidgetOf (enrichDefinitionWithServerOrigin d1 o)) := by
    rw [stateAfterFirst_serverOrigin, stateAfterFirst_widgetDefinitions, enrich_name d2 o,
      hname, enrich_name d1 o]
    simp [mapGet]
  have h2eq := registration_update_unfold (stateAfterFirst o b sess d1 r1) d2 r2
    (storedWidgetOf (enrichDefinitionWithServerOrigin d1 o)) hfound
  rw [stateAfterFirst_serverOrigin, stateAfterFirst_buildId,
    resolve_apps_uri (enrichDefinitionWithServerOrigin d2 o) b r2 ht2'] at h2eq
  have htools1 : (stateAfterFirst o b sess d1 r1).tools =
      [(d1.name,
        newToolRecord 2
          (buildToolDefinition (enrichDefinitionWithServerOrigin d1 o)
            (generateWidgetUri (enrichDefinitionWithServerOrigin d1 o).name b r1 ".html"))
          (enrichDefinitionWithServerOrigin d1 o) (displayNameOf d1))] := by
    rw [stateAfterFirst_tools, if_pos hexp1', hE1n]
  have hSWtoolsEx : ∃ r0, mapGet d1.name
      (storeWidgetDefinitionPhase (stateAfterFirst o b sess d1 r1)
        (enrichDefinitionWithServerOrigin d2 o)).tools = some r0 := by
    rw [store_tools_get]
    split
    · rw [htools1]
      simp [mapGet]
    · rw [htools1]
      simp [mapGet]
  obtain ⟨r0, hr0⟩ := hSWtoolsEx
  have hfound2 : mapGet (enrichDefinitionWithServerOrigin d2 o).name
      (resourcePhase
        (storeWidgetDefinitionPhase (stateAfterFirst o b sess d1 r1)
          (enrichDefinitionWithServerOrigin d2 o))
        (enrichDefinitionWithServerOrigin d2 o) true
        (generateWidgetUri (enrichDefinitionWithServerOrigin d2 o).name b r2 ".html")
        (if (enrichDefinitionWithServerOrigin d2 o).type = WidgetType.appsSdk then
          "text/html+skybridge" else "text/html;profile=mcp-app")
        (resourceMetaOf (enrichDefinitionWithServerOrigin d2 o))).tools = some r0 := by
    rw [resourcePhase_true_eq, hE2n]
    exact hr0
  have hst2 : regStep (stateAfterFirst o b sess d1 r1) d2 r2 =
      toolPhase
        (resourcePhase
          (storeWidgetDefinitionPhase (stateAfterFirst o b sess d1 r1)
            (enrichDefinitionWithServerOrigin d2 o))
          (enrichDefinitionWithServerOrigin d2 o) true
          (generateWidgetUri (enrichDefinitionWithServerOrigin d2 o).name b r2 ".html")
          (if (enrichDefinitionWithServerOrigin d2 o).type = WidgetType.appsSdk then
            "text/html+skybridge" else "text/html;profile=mcp-app")
          (resourceMetaOf (enrichDefinitionWithServerOrigin d2 o)))
        (enrichDefinitionWithServerOrigin d2 o) true
        (generateWidgetUri (enrichDefinitionWithServerOrigin d2 o).name b r2 ".html")
        (displayNameOf d2) := by
    simp [regStep, h2eq]
  have hst2b := toolPhase_update_found
    (resourcePhase
      (storeWidgetDefinitionPhase (stateAfterFirst o b sess d1 r1)
        (enrichDefinitionWithServerOrigin d2 o))
      (enrichDefinitionWithServerOrigin d2 o) true
      (generateWidgetUri (enrichDefinitionWithServerOrigin d2 o).name b r2 ".html")
      (if (enrichDefinitionWithServerOrigin d2 o).type = WidgetType.appsSdk then
        "text/html+skybridge" else "text/html;profile=mcp-app")
      (resourceMetaOf (enrichDefinitionWithServerOrigin d2 o)))
    (enrichDefinitionWithServerOrigin d2 o)
    (generateWidgetUri (enrichDefinitionWithServerOrigin d2 o).name b r2 ".html")
    (displayNameOf d2) r0 hexp2' hfound2
  rw [hst1, hst2, hst2b, resourcePhase_true_eq]
  have hwd : (storeWidgetDefinitionPhase (stateAfterFirst o b sess d1 r1)
      (enrichDefinitionWithServerOrigin d2 o)).widgetDefinitions =
      mapSet (enrichDefinitionWithServerOrigin d2 o).name
        (storedWidgetOf (enrichDefinitionWithServerOrigin d2 o))
        (stateAfterFirst o b sess d1 r1).widgetDefinitions :=
    store_widgetDefinitions_apps _ _ ht2'
  have hlatest2 : ∀ (wd : List (String × StoredWidget)),
      wd = (storeWidgetDefinitionPhase (stateAfterFirst o b sess d1 r1)
        (enrichDefinitionWithServerOrigin d2 o)).widgetDefinitions →
      getLatestDefinition wd (enrichDefinitionWithServerOrigin d2 o) =
        enrichDefinitionWithServerOrigin d2 o := by
    intro wd hwdeq
    rw [hwdeq, hwd]
    simp [getLatestDefinition, mapGet_set_self, storedWidgetOf]
  have hlatest1 : ∀ (wd : List (String × StoredWidget)),
      wd = (storeWidgetDefinitionPhase (stateAfterFirst o b sess d1 r1)
        (enrichDefinitionWithServerOrigin d2 o)).widgetDefinitions →
      getLatestDefinition wd (enrichDefinitionWithServerOrigin d1 o) =
        enrichDefinitionWithServerOrigin d1 o := by
    intro wd hwdeq
    rw [hwdeq, hwd]
    have hkey : (enrichDefinitionWithServerOrigin d1 o).name =
        (enrichDefinitionWithServerOrigin d2 o).name := by
      rw [hE1n, hE2n]
    simp [getLatestDefinition, hkey, mapGet_set_self, storedWidgetOf]
  have hres1 : (stateAfterFirst o b sess d1 r1).resources =
      [(d1.name ++ ":" ++ generateWidgetUri d1.name b r1 ".html",
        newResourceRecord 0 (enrichDefinitionWithServerOrigin d1 o)
          (generateWidgetUri d1.name b r1 ".html")
          (if (enrichDefinitionWithServerOrigin d1 o).type = WidgetType.appsSdk then
            "text/html+skybridge" else "text/html;profile=mcp-app")
          (resourceMetaOf (enrichDefinitionWithServerOrigin d1 o)))] := by
    rw [stateAfterFirst_resources, hE1n]
  have hkeyne : (d1.name ++ ":" ++ generateWidgetUri d1.name b r1 ".html") ≠
      ((enrichDefinitionWithServerOrigin d2 o).name ++ ":" ++
        generateWidgetUri (enrichDefinitionWithServerOrigin d2 o).name b r2 ".html") := by
    rw [hE2n]
    intro hcontra
    apply hr
    have h1 := (string_left_inj (d1.name ++ ":") _ _).mp hcontra
    simp only [generateWidgetUri] at h1
    exact (string_sandwich_inj ("ui://widget/" ++ d1.name ++ getBuildIdPart b ++ "-")
      ".html" r1 r2).mp h1
  refine ⟨?_, ?_, ?_, ?_, ?_, ?_⟩
  · rw [show (mapUpdate (enrichDefinitionWithServerOrigin d2 o).name _ _) =
        mapUpdate d1.name
          (hmrToolUpdate
            (buildToolDefinition (enrichDefinitionWithServerOrigin d2 o)
              (generateWidgetUri (enrichDefinitionWithServerOrigin d2 o).name b r2 ".html"))
            (enrichDefinitionWithServerOrigin d2 o) (displayNameOf d2))
          (storeWidgetDefinitionPhase (stateAfterFirst o b sess d1 r1)
            (enrichDefinitionWithServerOrigin d2 o)).tools from by rw [hE2n],
      mapGet_update_get, hr0]
    rfl
  · intro p
    rw [show (mapUpdate (enrichDefinitionWithServerOrigin d2 o).name _ _) =
        mapUpdate d1.name
          (hmrToolUpdate
            (buildToolDefinition (enrichDefinitionWithServerOrigin d2 o)
              (generateWidgetUri (enrichDefinitionWithServerOrigin d2 o).name b r2 ".html"))
            (enrichDefinitionWithServerOrigin d2 o) (displayNameOf d2))
          (storeWidgetDefinitionPhase (stateAfterFirst o b sess d1 r1)
            (enrichDefinitionWithServerOrigin d2 o)).tools from by rw [hE2n],
      mapGet_update_get, hr0]
    rfl
  · rw [show ((enrichDefinitionWithServerOrigin d2 o).name ++ "-dynamic") =
        (d1.name ++ "-dynamic") from by rw [hE2n],
      mapGet_update_get, store_resourceTemplates, stateAfterFirst_resourceTemplates, hE1n]
    simp [mapGet, hmrTemplateUpdate]
  · intro u
    rw [show ((enrichDefinitionWithServerOrigin d2 o).name ++ "-dynamic") =
        (d1.name ++ "-dynamic") from by rw [hE2n],
      mapGet_update_get, store_resourceTemplates, stateAfterFirst_resourceTemplates, hE1n]
    simp [mapGet, invokeTemplateRead, hmrTemplateUpdate, createWidgetUIResource]
    exact hlatest2 _ rfl
  · rw [mapGet_update_other _ _ hkeyne, store_resources, hres1]
    simp [mapGet, newResourceRecord]
  · rw [mapGet_update_other _ _ hkeyne, store_resources, hres1]
    simp [mapGet, invokeResourceRead, newResourceRecord, createWidgetUIResource]
    exact hlatest1 _ rfl

/-- Claim C1 witness: the amended theorem applied to the hot update of
the mcpApps widget `w` from title `A` to title `B` with distinct random
draws. -/
theorem c1_handler_rebinding_witness :
    (wDefB.name = wDefA.name ∧
        (wDefA.type = WidgetType.appsSdk ∨ wDefA.type = WidgetType.mcpApps) ∧
        (wDefB.type = WidgetType.appsSdk ∨ wDefB.type = WidgetType.mcpApps) ∧
        resolveExposeAsTool wDefA = true ∧ resolveExposeAsTool wDefB = true ∧
        ("r1" : String) ≠ "r2") ∧
      ((mapGet wDefA.name
          (regStep (regStep (emptyState none none ["s1"]) wDefA "r1") wDefB "r2").tools).map
        (fun rec => rec.handler) =
        some { captured := enrichDefinitionWithServerOrigin wDefB none
               displayName := displayNameOf wDefB } ∧
        (∀ p, (mapGet wDefA.name
            (regStep (regStep (emptyState none none ["s1"]) wDefA "r1") wDefB "r2").tools).map
          (fun rec => invokeToolHandler rec.handler p) =
          some (toolCallback (enrichDefinitionWithServerOrigin wDefB none)
            (displayNameOf wDefB) p)) ∧
        (mapGet (wDefA.name ++ "-dynamic")
            (regStep (regStep (emptyState none none ["s1"]) wDefA "r1")
              wDefB "r2").resourceTemplates).map
          (fun rec => rec.handler.captured) =
          some (enrichDefinitionWithServerOrigin wDefB none) ∧
        (∀ u, (mapGet (wDefA.name ++ "-dynamic")
            (regStep (regStep (emptyState none none ["s1"]) wDefA "r1")
              wDefB "r2").resourceTemplates).map
          (fun rec => (invokeTemplateRead
              (regStep (regStep (emptyState none none ["s1"]) wDefA "r1") wDefB "r2")
              rec.handler u).contents.map (fun c => c.sourceDef)) =
          some [enrichDefinitionWithServerOrigin wDefB none]) ∧
        (mapGet (wDefA.name ++ ":" ++ generateWidgetUri wDefA.name none "r1" ".html")
            (regStep (regStep (emptyState none none ["s1"]) wDefA "r1") wDefB "r2").resources).map
          (fun rec => rec.handler.captured) =
          some (enrichDefinitionWithServerOrigin wDefA none) ∧
        (mapGet (wDefA.name ++ ":" ++ generateWidgetUri wDefA.name none "r1" ".html")
            (regStep (regStep (emptyState none none ["s1"]) wDefA "r1") wDefB "r2").resources).map
          (fun rec => (invokeResourceRead
              (regStep (regStep (emptyState none none ["s1"]) wDefA "r1") wDefB "r2")
              rec.handler).contents.map (fun c => c.sourceDef)) =
          some [enrichDefinitionWithServerOrigin wDefA none]) :=
  ⟨⟨rfl, Or.inr rfl, Or.inr rfl, rfl, rfl, by decide⟩,
    c1_handler_rebinding none none ["s1"] wDefA wDefB "r1" "r2" rfl (Or.inr rfl) (Or.inr rfl)
      rfl rfl (by decide)⟩

/-- Claim C1 counterexample: after registering `wDefA` under name `w`
and hot-updating the same name with `wDefB` (fresh random draws r1 and
r2), invoking the stored resource record's read handler still computes
the content from the registration-time snapshot `wDefA`, not from the
latest stored definition `wDefB`: the handler was not replaced (its
`name:uri` key was regenerated with a fresh random suffix) and
`getLatestDefinition` falls back to the closed-over definition because
the store holds no full definition. -/
theorem c1_stale_resource_read_counterexample :
    (mapGet wKey1 wState2.resources).map
        (fun r => (invokeResourceRead wState2 r.handler).contents.map
          UIResourceContent.sourceDef) =
      some [wDefA] ∧ wDefA.title ≠ wDefB.title := by
  constructor
  · rfl
  · decide

/-- Claim C2 counterexample: for a legacy rawHtml widget the hot-update
detection never triggers (the widget-definition store is only written
for appsSdk / mcpApps), so registering the same name twice invokes the
server's resource registration function twice and yields two resource
records, and the re-created tool record has a fresh identity. -/
theorem c2_legacy_rereg_counterexample :
    rawState2.resourceCalls = 2 ∧ rawState2.toolRegCalls = 2 ∧
      rawState2.resources.length = 2 ∧
      (mapGet rawDef.name rawState2.tools).map ToolRecord.id ≠
        (mapGet rawDef.name (regStep (emptyState none none ["s1"]) rawDef "aaa").tools).map
          ToolRecord.id :=
  ⟨rfl, rfl, rfl, by decide⟩

end McpUse
